import Mathlib

/-!
Verification of the risk-evaluation and execution-planning subsystem of the
trades-ai repository.  Floating-point (`float64`) arithmetic of the Go source
is embedded as exact rational arithmetic (`ℚ`); `math.IsNaN` / `math.IsInf`
can never hold on rationals, and rational division by zero yields `0`, which
is caught by the same non-positivity guard the Go code uses for infinities.
Stop-loss / take-profit decimal strings are represented by their parsed
rational value (a parse failure in Go yields the value `0` plus a note).
Human-readable note strings of the source are carried as short English tags,
one per distinct source message.
-/

namespace TradesAI

/-- Epsilon used by every numeric comparison of the risk manager
(`exposureEpsilon = 1e-6` in `internal/risk/manager.go`). -/
def exposureEpsilon : ℚ := 1 / 1000000

/-- Model of Go `math.Abs` on rationals (kept as an if-expression so that
concrete runs of the embedded code reduce). -/
def absQ (x : ℚ) : ℚ :=
  if x < 0 then -x else x

/-- Model of Go `math.Min` on rationals. -/
def minQ (x y : ℚ) : ℚ :=
  if x ≤ y then x else y

/-- Model of Go `math.Max` on rationals. -/
def maxQ (x y : ℚ) : ℚ :=
  if x ≤ y then y else x

/-- Model of Go `math.Copysign x y`: magnitude of `x` with the sign of `y`
(`y = 0` counts as positive, matching Go positive zero). -/
def copysign (x y : ℚ) : ℚ :=
  if y < 0 then -(absQ x) else absQ x

/-- ASCII upper-casing, modelling Go `strings.ToUpper` on the ASCII tokens
the risk manager compares against. -/
def upperStr (s : String) : String :=
  ⟨s.data.map Char.toUpper⟩

/-- ASCII lower-casing, modelling Go `strings.ToLower`. -/
def lowerStr (s : String) : String :=
  ⟨s.data.map Char.toLower⟩

/-- Whitespace test used by the trimming model of Go `strings.TrimSpace`. -/
def isSpaceChar (c : Char) : Bool :=
  c = ' ' ∨ c = '\t' ∨ c = '\n' ∨ c = '\r'

/-- Model of Go `strings.TrimSpace`. -/
def trimStr (s : String) : String :=
  ⟨((s.data.dropWhile isSpaceChar).reverse.dropWhile isSpaceChar).reverse⟩

/-- Subset of `config.RiskConfig` used by the risk subsystem. -/
structure RiskConfig where
  maxTradeRisk : ℚ
  maxDailyLoss : ℚ
  maxExposure : ℚ
  confidenceFullRisk : ℚ
  confidenceHalfRisk : ℚ
deriving DecidableEq, Repr

/-- One row of the `risk_daily_metrics` table (keyed by trading date). -/
structure DailyRow where
  startEquity : ℚ
  currentEquity : ℚ
  halted : Bool
deriving DecidableEq, Repr

/-- `risk.DailyStatus`. -/
structure DailyStatus where
  tradingDate : String
  startEquity : ℚ
  currentEquity : ℚ
  lossPercent : ℚ
  halted : Bool
deriving DecidableEq, Repr

/-- One row of the append-only `risk_activity_log` table. -/
structure ActivityEntry where
  eventType : String
  message : String
  details : String
  tradingDate : String
deriving DecidableEq, Repr

/-- Persistent state of the daily tracker: the metrics table (a partial map
from trading date to row) and the activity log. -/
structure TrackerState where
  metrics : String → Option DailyRow
  activity : List ActivityEntry

/-- Loss percentage as computed in `DailyTracker.Update`
(`lossPercent := 0.0; if startEquity > 0 { lossPercent = (equity-startEquity)/startEquity }`). -/
def lossPercentOf (startEquity equity : ℚ) : ℚ :=
  if 0 < startEquity then (equity - startEquity) / startEquity else 0

/-- `DailyTracker.Update` (tracker.go lines 74-171), with the trading date
already computed from the timestamp by `tradingDay`.  Returns the new
persistent state together with the `DailyStatus` result.  The single SQL
transaction of the source is modelled by the atomic state replacement. -/
def trackerUpdate (cfg : RiskConfig) (s : TrackerState) (tradingDate : String)
    (equity : ℚ) : TrackerState × DailyStatus :=
  match s.metrics tradingDate with
  | none =>
      let row : DailyRow := ⟨equity, equity, false⟩
      (⟨fun d => if d = tradingDate then some row else s.metrics d, s.activity⟩,
       ⟨tradingDate, equity, equity, 0, false⟩)
  | some row =>
      let startEquity := row.startEquity
      let lossPercent := lossPercentOf startEquity equity
      let newlyHalted : Bool :=
        !row.halted && (decide (0 < startEquity) && decide (lossPercent ≤ -cfg.maxDailyLoss))
      let halted : Bool := row.halted || newlyHalted
      let row' : DailyRow := ⟨startEquity, equity, halted⟩
      let activity' :=
        if newlyHalted then
          s.activity ++ [⟨"daily_halt", "daily loss limit reached halting trading", "", tradingDate⟩]
        else s.activity
      (⟨fun d => if d = tradingDate then some row' else s.metrics d, activity'⟩,
       ⟨tradingDate, startEquity, equity, lossPercent, halted⟩)

/-- `DailyTracker.LogEvent` (tracker.go lines 174-192): appends to the
activity log only; an empty event type is rejected without any write. -/
def trackerLogEvent (s : TrackerState) (eventType message details tradingDate : String) :
    TrackerState :=
  if eventType = "" then s
  else ⟨s.metrics, s.activity ++ [⟨eventType, message, details, tradingDate⟩]⟩

/-- Halted flag currently persisted for a trading date (false when no row). -/
def haltedOn (s : TrackerState) (tradingDate : String) : Bool :=
  match s.metrics tradingDate with
  | some row => row.halted
  | none => false

/-- `ai.Decision` fields consumed by the risk manager.  `newStopLoss` and
`newTakeProfit` hold the rational value parsed from the decimal strings. -/
structure Decision where
  intent : String
  direction : String
  targetExposurePct : ℚ
  adjustmentPct : ℚ
  confidence : ℚ
  newStopLoss : ℚ
  newTakeProfit : ℚ
  orderPreference : String
deriving DecidableEq, Repr

/-- `risk.AccountState` fields consumed by `Evaluate`. -/
structure AccountState where
  equity : ℚ
  currentExposurePercent : ℚ
deriving DecidableEq, Repr

/-- `position.Summary` field consumed by `Evaluate`. -/
structure PositionSummary where
  side : String
deriving DecidableEq, Repr

/-- `feature.FeatureSet` field consumed by `Evaluate`. -/
structure FeatureSet where
  atrAbsolute : ℚ
deriving DecidableEq, Repr

/-- `risk.EvaluationInput`. -/
structure EvaluationInput where
  decision : Decision
  features : FeatureSet
  position : PositionSummary
  account : AccountState
  marketPrice : ℚ
deriving DecidableEq, Repr

/-- `risk.StatusType`. -/
inductive StatusType
  | proceed
  | deny
  | exitOnly
deriving DecidableEq, Repr

/-- `risk.EvaluationResult`. -/
structure EvaluationResult where
  status : StatusType
  targetExposurePercent : ℚ
  recommendedStopLoss : ℚ
  recommendedTakeProfit : ℚ
  riskAmount : ℚ
  confidenceApplied : ℚ
  notes : List String
  dailyStatus : DailyStatus
deriving DecidableEq, Repr

/-- `resolveExposureSign` (manager.go lines 264-292). -/
def resolveExposureSign (direction : String) (current : ℚ) (currentSide : String)
    (intent : String) : ℚ :=
  if direction = "LONG" then 1
  else if direction = "SHORT" then -1
  else if direction = "FLAT" then 0
  else if upperStr currentSide = "LONG" then 1
  else if upperStr currentSide = "SHORT" then -1
  else if intent = "HEDGE" ∧ exposureEpsilon < absQ current then -(copysign 1 current)
  else if 0 < current then 1
  else if current < 0 then -1
  else 1

/-- `deriveDesiredExposure` (manager.go lines 240-262). -/
def deriveDesiredExposure (intent direction : String) (target adjustment current : ℚ)
    (currentSide : String) : ℚ :=
  let dir := upperStr direction
  let inten := upperStr intent
  if inten = "CLOSE" ∨ dir = "FLAT" then 0
  else
    let sign := resolveExposureSign dir current currentSide inten
    let d1 :=
      if 0 < target then target * sign
      else if absQ current < exposureEpsilon then target * sign
      else current
    if adjustment ≠ 0 then current + adjustment * sign else d1

/-- `orientationLabel` (manager.go lines 294-303). -/
def orientationLabel (value : ℚ) : String :=
  if exposureEpsilon < value then "LONG"
  else if value < -exposureEpsilon then "SHORT"
  else "FLAT"

/-- `selectStop` (manager.go lines 305-349). -/
def selectStop (direction : String) (decisionStop atr price : ℚ) : ℚ :=
  if direction = "SHORT" then
    let decisionCandidate := if price < decisionStop then decisionStop else 0
    let atrCandidate := if 0 < atr then price + 2 * atr else 0
    if 0 < decisionCandidate ∧ 0 < atrCandidate then minQ decisionCandidate atrCandidate
    else if 0 < decisionCandidate then decisionCandidate
    else if 0 < atrCandidate then atrCandidate
    else 0
  else
    let decisionCandidate := if 0 < decisionStop ∧ decisionStop < price then decisionStop else 0
    let atrCandidate := if 0 < atr ∧ 0 < price - 2 * atr then price - 2 * atr else 0
    if 0 < decisionCandidate ∧ 0 < atrCandidate then maxQ decisionCandidate atrCandidate
    else if 0 < decisionCandidate then decisionCandidate
    else if 0 < atrCandidate then atrCandidate
    else 0

/-- `computeStopDistance` (manager.go lines 351-356). -/
def computeStopDistance (direction : String) (price stop : ℚ) : ℚ :=
  if direction = "SHORT" then stop - price else price - stop

/-- `Manager.confidenceFactor` (manager.go lines 222-230): returns the pair
(factor, confidenceApplied); both components are always equal in the source. -/
def confidenceFactor (cfg : RiskConfig) (confidence : ℚ) : ℚ × ℚ :=
  if cfg.confidenceFullRisk ≤ confidence then (1, 1)
  else if cfg.confidenceHalfRisk ≤ confidence then (1 / 2, 1 / 2)
  else (0, 0)

/-- Effective maximum exposure (manager.go lines 109-112: a non-positive
configured `MaxExposure` falls back to `0.20`). -/
def effectiveMaxExposure (cfg : RiskConfig) : ℚ :=
  if cfg.maxExposure ≤ 0 then 1 / 5 else cfg.maxExposure

/-- Clamp of the desired exposure to the maximum (manager.go lines 113-120). -/
def clampExposure (maxExp d : ℚ) : ℚ :=
  if maxExp < absQ d then copysign maxExp d else d

/-- Cap of the risk-derived target at the maximum (manager.go lines 182-184). -/
def capTargetByRisk (maxExp t : ℚ) : ℚ :=
  if maxExp < t then maxExp else t

/-- Normalized intent (manager.go lines 72-75: trimmed, upper-cased, blank
defaults to ADJUST). -/
def normalizedIntent (d : Decision) : String :=
  let i := trimStr d.intent |> upperStr
  if i = "" then "ADJUST" else i

/-- Normalized direction (manager.go lines 76-79: trimmed, upper-cased, blank
defaults to AUTO). -/
def normalizedDirection (d : Decision) : String :=
  let dir := trimStr d.direction |> upperStr
  if dir = "" then "AUTO" else dir

/-- The desired signed exposure derived by `Evaluate` (manager.go line 85). -/
def desiredExposureOf (input : EvaluationInput) : ℚ :=
  deriveDesiredExposure (normalizedIntent input.decision) (normalizedDirection input.decision)
    input.decision.targetExposurePct input.decision.adjustmentPct
    input.account.currentExposurePercent input.position.side

def desired2Of (cfg : RiskConfig) (input : EvaluationInput) : ℚ :=
  clampExposure (effectiveMaxExposure cfg) (desiredExposureOf input)

def increaseOf (cfg : RiskConfig) (input : EvaluationInput) : Prop :=
  absQ input.account.currentExposurePercent + exposureEpsilon < absQ (desired2Of cfg input) ∨
    desired2Of cfg input * input.account.currentExposurePercent < 0

/-- The exposure-increasing branch of `Manager.Evaluate` (manager.go lines
167-203): risk-budget sizing, capping, and the final no-op check. -/
def evaluateIncrease (cfg : RiskConfig) (input : EvaluationInput) (base : EvaluationResult)
    (notes2 : List String) (maxExp desired2 recStop : ℚ) (cf : ℚ × ℚ)
    (targetDirection : String) : EvaluationResult :=
  let stopDistance := computeStopDistance targetDirection input.marketPrice recStop
  let riskPerTrade := cfg.maxTradeRisk * cf.1
  let riskAmount := input.account.equity * riskPerTrade
  if riskAmount ≤ 0 then
    { base with
        confidenceApplied := cf.2
        recommendedStopLoss := recStop
        notes := notes2 ++ ["zero risk budget"] }
  else
    let targetByRisk := riskPerTrade * (input.marketPrice / stopDistance)
    if targetByRisk ≤ 0 then
      { base with
          confidenceApplied := cf.2
          recommendedStopLoss := recStop
          notes := notes2 ++ ["risk sizing failed"] }
    else
      let finalAbs := minQ (absQ desired2) (capTargetByRisk maxExp targetByRisk)
      if finalAbs ≤ exposureEpsilon then
        { base with
            confidenceApplied := cf.2
            recommendedStopLoss := recStop
            notes := notes2 ++ ["no effective position after risk limit"] }
      else
        let finalExposure := copysign finalAbs desired2
        if absQ (finalExposure - input.account.currentExposurePercent) < exposureEpsilon then
          { base with
              confidenceApplied := cf.2
              recommendedStopLoss := recStop
              notes := notes2 ++ ["risk limited target close to current"] }
        else
          { base with
              status := .proceed
              targetExposurePercent := finalExposure
              riskAmount := riskAmount
              confidenceApplied := cf.2
              recommendedStopLoss := recStop
              notes := notes2 ++ ["risk limited target accepted"] }

/-- The non-increasing branch of `Manager.Evaluate` (manager.go lines
204-215): reductions and closes bypass the risk sizing. -/
def evaluateAdjust (input : EvaluationInput) (base : EvaluationResult)
    (notes2 : List String) (desired2 recStop : ℚ) (cf : ℚ × ℚ) : EvaluationResult :=
  if absQ (desired2 - input.account.currentExposurePercent) < exposureEpsilon then
    { base with
        confidenceApplied := cf.2
        recommendedStopLoss := recStop
        notes := notes2 ++ ["difference below threshold"] }
  else
    { base with
        status := .proceed
        targetExposurePercent := desired2
        riskAmount := 0
        confidenceApplied := cf.2
        recommendedStopLoss := recStop
        notes := notes2 ++ ["adjust to target"] }

/-- The non-flat part of `Manager.Evaluate` (manager.go lines 109-219):
clamping, equity/price validation, the daily-halt gate, stop selection, the
confidence gate, and the dispatch to the increase or adjust branch. -/
def evaluateMain (cfg : RiskConfig) (input : EvaluationInput) (status : DailyStatus)
    (base : EvaluationResult) (notes1 : List String) (desired : ℚ) : EvaluationResult :=
  let maxExp := effectiveMaxExposure cfg
  let desired2 := clampExposure maxExp desired
  let notes2 := if maxExp < absQ desired then notes1 ++ ["clamped to max exposure"] else notes1
  if input.account.equity ≤ 0 then
    { base with notes := notes2 ++ ["invalid account equity"] }
  else if input.marketPrice ≤ 0 then
    { base with notes := notes2 ++ ["missing valid market price"] }
  else
    let increase := absQ input.account.currentExposurePercent + exposureEpsilon <
        absQ desired2 ∨ desired2 * input.account.currentExposurePercent < 0
    if status.halted ∧ increase then
      { base with notes := notes2 ++ ["daily loss limit reached deny new position"] }
    else
      let cf := confidenceFactor cfg input.decision.confidence
      let targetDirection := orientationLabel desired2
      let finalStop := selectStop targetDirection input.decision.newStopLoss
        input.features.atrAbsolute input.marketPrice
      if exposureEpsilon < absQ desired2 ∧ finalStop ≤ 0 then
        { base with confidenceApplied := cf.2, notes := notes2 ++ ["no valid stop"] }
      else if exposureEpsilon < absQ desired2 ∧
          computeStopDistance targetDirection input.marketPrice finalStop ≤ 0 then
        { base with confidenceApplied := cf.2, notes := notes2 ++ ["stop position unreasonable"] }
      else
        let recStop := if exposureEpsilon < absQ desired2 then finalStop
          else input.decision.newStopLoss
        if increase ∧ cf.1 ≤ 0 then
          { base with
              confidenceApplied := cf.2
              recommendedStopLoss := recStop
              notes := notes2 ++ ["insufficient confidence deny increase"] }
        else if increase then
          evaluateIncrease cfg input base notes2 maxExp desired2 recStop cf targetDirection
        else
          evaluateAdjust input base notes2 desired2 recStop cf

/-- `Manager.Evaluate` (manager.go lines 48-220), as a pure function of the
configuration, the evaluation input, and the `DailyStatus` returned by the
tracker update the method performs first. -/
def evaluate (cfg : RiskConfig) (input : EvaluationInput) (status : DailyStatus) :
    EvaluationResult :=
  let stopLoss := input.decision.newStopLoss
  let takeProfit := input.decision.newTakeProfit
  let orderPref := trimStr input.decision.orderPreference |> upperStr
  let notes0 : List String := if orderPref ≠ "" then ["order preference noted"] else []
  let notes1 := notes0 ++ ["ai desired exposure derived"]
  let base : EvaluationResult :=
    { status := .deny
      targetExposurePercent := 0
      recommendedStopLoss := stopLoss
      recommendedTakeProfit := takeProfit
      riskAmount := 0
      confidenceApplied := 0
      notes := notes1
      dailyStatus := status }
  let desired := desiredExposureOf input
  if absQ desired < exposureEpsilon then
    if absQ input.account.currentExposurePercent < exposureEpsilon then
      { base with notes := notes1 ++ ["already flat nothing to do"] }
    else
      { base with
          status := .proceed
          targetExposurePercent := 0
          riskAmount := 0
          recommendedStopLoss := 0
          notes := notes1 ++ ["target zero full close"] }
  else
    evaluateMain cfg input status base notes1 desired

/-- `execution.Options` (executor.go lines 25-29). -/
structure ExecOptions where
  slippage : ℚ
  timeInForce : String
  postOnly : Bool
deriving DecidableEq, Repr

/-- The fields of `execution.ExecutionPlan` consumed by `buildOrderRequests`
(the risk-result status, exposures, price, equity, protective levels). -/
structure ExecutionPlan where
  riskStatus : StatusType
  currentExposure : ℚ
  targetExposure : ℚ
  marketPrice : ℚ
  totalEquity : ℚ
  stopLoss : ℚ
  takeProfit : ℚ
deriving DecidableEq, Repr

/-- The broker parameter bag (`map[string]interface{}`) built by
`buildOrderRequests`; absent keys are `none` / `false`. -/
structure OrderParams where
  reduceOnly : Bool
  closePosition : Bool
  slippage : Option ℚ
  postOnly : Bool
  timeInForce : Option String
  stopLossPrice : Option ℚ
  takeProfitPrice : Option ℚ
deriving DecidableEq, Repr

/-- `execution.OrderRequest` fields populated by `buildOrderRequests`. -/
structure OrderRequest where
  type : String
  side : String
  amount : ℚ
  price : ℚ
  reduceOnly : Bool
  closeAll : Bool
  params : OrderParams
  isTrigger : Bool
deriving DecidableEq, Repr

/-- The distinct error returns of `buildOrderRequests` (executor.go lines
151-178), in source order. -/
inductive BuildError
  | riskNotAllowed
  | invalidPrice
  | alreadyAtTarget
  | invalidEquity
  | invalidAmount
deriving DecidableEq, Repr

/-- `sameDirection` (executor.go lines 140-145). -/
def sameDirection (a b : ℚ) : Bool :=
  if a = 0 ∨ b = 0 then false
  else decide ((0 < a ∧ 0 < b) ∨ (a < 0 ∧ b < 0))

/-- The primary market order constructed by `buildOrderRequests` once every
check has passed (executor.go lines 160-221). -/
def primaryOrder (plan : ExecutionPlan) (opts : ExecOptions) : OrderRequest :=
  let target := plan.targetExposure
  let current := plan.currentExposure
  let exposureDiff := target - current
  let side := if exposureDiff < 0 then "sell" else "buy"
  let amount := absQ exposureDiff * plan.totalEquity / plan.marketPrice
  let reduceOnly0 := sameDirection target current && decide (absQ target ≤ absQ current)
  let closeAll := decide (absQ target < 1 / 1000000)
  let reduceOnly := reduceOnly0 || closeAll
  let params : OrderParams :=
    { reduceOnly := reduceOnly
      closePosition := closeAll
      slippage := if 0 < opts.slippage then some opts.slippage else none
      postOnly := opts.postOnly
      timeInForce := if opts.timeInForce ≠ "" then some (lowerStr opts.timeInForce) else none
      stopLossPrice := if !closeAll && decide (0 < plan.stopLoss) then some plan.stopLoss else none
      takeProfitPrice := if !closeAll && decide (0 < plan.takeProfit) then some plan.takeProfit else none }
  { type := "market"
    side := side
    amount := amount
    price := plan.marketPrice
    reduceOnly := reduceOnly
    closeAll := closeAll
    params := params
    isTrigger := !closeAll && (decide (0 < plan.stopLoss) || decide (0 < plan.takeProfit)) }

/-- `buildOrderRequests` (executor.go lines 151-222). -/
def buildOrderRequests (plan : ExecutionPlan) (opts : ExecOptions) :
    Except BuildError (List OrderRequest) :=
  if plan.riskStatus ≠ .proceed then .error .riskNotAllowed
  else if plan.marketPrice ≤ 0 then .error .invalidPrice
  else if absQ (plan.targetExposure - plan.currentExposure) < 1 / 1000000 then
    .error .alreadyAtTarget
  else if plan.totalEquity ≤ 0 then .error .invalidEquity
  else if absQ (plan.targetExposure - plan.currentExposure) * plan.totalEquity /
      plan.marketPrice ≤ 0 then .error .invalidAmount
  else .ok [primaryOrder plan opts]

/-- Outcome of one broker-client call for one order attempt; `retryable` is
the classification by `exchange.IsRetryable` (network / timeout / rate-limit /
unavailable errors are retryable, all others are not). -/
inductive AttemptOutcome
  | ok
  | errRes (retryable : Bool)
deriving DecidableEq, Repr

/-- The distinct failure modes of `Executor.submitOrder` (executor.go lines
83-127): a non-retryable error returned as-is, the context-cancellation
error from the backoff wait, and the wrapped retries-exhausted error. -/
inductive SubmitError
  | fatal
  | ctxCancelled
  | retriesExhausted
deriving DecidableEq, Repr

/-- The attempt loop of `Executor.submitOrder` over a list of attempt
numbers.  `resp a` is the broker-client outcome of attempt `a`; `ctxDone a`
says whether the context is cancelled during the backoff wait that follows a
retryable failure of attempt `a` (the wait and its cancellation check run
after every retryable failure, including the final attempt).  Returns the
error (none on success) and the list of attempt numbers actually made. -/
def runAttempts (resp : Nat → AttemptOutcome) (ctxDone : Nat → Bool) :
    List Nat → Option SubmitError × List Nat
  | [] => (some .retriesExhausted, [])
  | a :: rest =>
      match resp a with
      | .ok => (none, [a])
      | .errRes r =>
          if r = false then (some .fatal, [a])
          else if ctxDone a then (some .ctxCancelled, [a])
          else
            let t := runAttempts resp ctxDone rest
            (t.1, a :: t.2)

/-- `Executor.submitOrder` (executor.go lines 83-127): attempts
`1, 2, ..., maxRetry` in order (`NewExecutor` fixes `maxRetry = 3`). -/
def submitOrder (resp : Nat → AttemptOutcome) (ctxDone : Nat → Bool) (maxRetry : Nat) :
    Option SubmitError × List Nat :=
  runAttempts resp ctxDone (List.range' 1 maxRetry)

/-- The order loop of `Executor.Execute` (executor.go lines 72-77), from
order index `i`:  submits each order in list order, stopping at the first
order whose submission fails.  Returns the submission trace (order index and
attempt numbers for each order reached), the executed flag, the notes, and
the error of the failing order, if any. -/
def executeOrders (resp : Nat → Nat → AttemptOutcome) (ctxDone : Nat → Nat → Bool)
    (maxRetry : Nat) : Nat → List OrderRequest →
    List (Nat × List Nat) × (Bool × List String × Option SubmitError)
  | _, [] => ([], (true, [], none))
  | i, _o :: rest =>
      let sub := submitOrder (resp i) (ctxDone i) maxRetry
      match sub.1 with
      | none =>
          let t := executeOrders resp ctxDone maxRetry (i + 1) rest
          ((i, sub.2) :: t.1, t.2)
      | some e => ([(i, sub.2)], (false, ["order submit failed"], some e))

/-- `execution.Result` fields relevant here (`ExecutionTime` omitted). -/
structure ExecResult where
  orders : List OrderRequest
  executed : Bool
  notes : List String
deriving DecidableEq, Repr

/-- `Executor.Execute` (executor.go lines 60-81): an empty batch returns
`Executed=false` with no error; otherwise the orders are submitted in list
order with `maxRetry = 3`, and `Executed` is set to true only when the loop
finishes without a failure. -/
def executorExecute (resp : Nat → Nat → AttemptOutcome) (ctxDone : Nat → Nat → Bool)
    (orders : List OrderRequest) : ExecResult × Option SubmitError :=
  if orders = [] then ({ orders := orders, executed := false, notes := [] }, none)
  else
    let t := executeOrders resp ctxDone 3 0 orders
    ({ orders := orders, executed := t.2.1, notes := t.2.2.1 }, t.2.2.2)

/-! Bridge lemmas between the executable rational helpers and Mathlib. -/

theorem absQ_eq_abs (x : ℚ) : absQ x = |x| := by
  unfold absQ
  rcases lt_or_ge x 0 with h | h
  · rw [if_pos h, abs_of_neg h]
  · rw [if_neg (not_lt.mpr h), abs_of_nonneg h]

theorem minQ_eq_min (x y : ℚ) : minQ x y = min x y := by
  unfold minQ
  rcases le_or_lt x y with h | h
  · rw [if_pos h, min_eq_left h]
  · rw [if_neg (not_le.mpr h), min_eq_right h.le]

theorem maxQ_eq_max (x y : ℚ) : maxQ x y = max x y := by
  unfold maxQ
  rcases le_or_lt x y with h | h
  · rw [if_pos h, max_eq_right h]
  · rw [if_neg (not_le.mpr h), max_eq_left h.le]

theorem absQ_nonneg (x : ℚ) : 0 ≤ absQ x := by
  rw [absQ_eq_abs]; exact abs_nonneg x

/-- C10: `Executor.Execute` on an empty order list returns `Executed=false`,
empty notes, and no error: the empty batch is reported neither as a success
nor as a failure. -/
theorem executorExecute_empty_batch (resp : Nat → Nat → AttemptOutcome)
    (ctxDone : Nat → Nat → Bool) :
    executorExecute resp ctxDone [] =
      ({ orders := [], executed := false, notes := [] }, none) := rfl

theorem sameDirection_eq_true_iff (a b : ℚ) :
    sameDirection a b = true ↔ ((0 < a ∧ 0 < b) ∨ (a < 0 ∧ b < 0)) := by
  unfold sameDirection
  by_cases h : a = 0 ∨ b = 0
  · rw [if_pos h]
    simp only [Bool.false_eq_true, false_iff]
    rintro (⟨ha, hb⟩ | ⟨ha, hb⟩) <;> rcases h with h | h
    · exact absurd ha (by rw [h]; exact lt_irrefl 0)
    · exact absurd hb (by rw [h]; exact lt_irrefl 0)
    · exact absurd ha (by rw [h]; exact lt_irrefl 0)
    · exact absurd hb (by rw [h]; exact lt_irrefl 0)
  · rw [if_neg h]
    exact decide_eq_true_iff

/-- C6: `buildOrderRequests` fails exactly on one of: risk status not
proceed, non-positive market price, exposure difference below `1e-6`, or
non-positive equity; the risk-status check runs first; and every plan
passing the four checks yields a non-empty (one-element) order list, so the
amount-invalid error branch is unreachable. -/
theorem buildOrderRequests_error_characterization (plan : ExecutionPlan) (opts : ExecOptions) :
    (plan.riskStatus ≠ .proceed → buildOrderRequests plan opts = .error .riskNotAllowed) ∧
    ((∃ e, buildOrderRequests plan opts = .error e) ↔
      plan.riskStatus ≠ .proceed ∨ plan.marketPrice ≤ 0 ∨
        absQ (plan.targetExposure - plan.currentExposure) < 1 / 1000000 ∨
        plan.totalEquity ≤ 0) ∧
    (plan.riskStatus = .proceed → 0 < plan.marketPrice →
      1 / 1000000 ≤ absQ (plan.targetExposure - plan.currentExposure) →
      0 < plan.totalEquity →
      ∃ o, buildOrderRequests plan opts = .ok [o]) := by
  unfold buildOrderRequests
  split_ifs with h1 h2 h3 h4 h5
  · exact ⟨fun _ => rfl,
      Iff.intro (fun _ => Or.inl h1) (fun _ => ⟨_, rfl⟩),
      fun hc => absurd hc h1⟩
  · exact ⟨fun hc => absurd hc h1,
      Iff.intro (fun _ => Or.inr (Or.inl h2)) (fun _ => ⟨_, rfl⟩),
      fun _ hp => absurd h2 (not_le.mpr hp)⟩
  · exact ⟨fun hc => absurd hc h1,
      Iff.intro (fun _ => Or.inr (Or.inr (Or.inl h3))) (fun _ => ⟨_, rfl⟩),
      fun _ _ hd => absurd h3 (not_lt.mpr hd)⟩
  · exact ⟨fun hc => absurd hc h1,
      Iff.intro (fun _ => Or.inr (Or.inr (Or.inr h4))) (fun _ => ⟨_, rfl⟩),
      fun _ _ _ he => absurd h4 (not_le.mpr he)⟩
  · refine absurd h5 (not_le.mpr ?_)
    have hp : 0 < plan.marketPrice := not_le.mp h2
    have he : 0 < plan.totalEquity := not_le.mp h4
    have hd : 0 < absQ (plan.targetExposure - plan.currentExposure) :=
      lt_of_lt_of_le (by norm_num) (not_lt.mp h3)
    exact div_pos (mul_pos hd he) hp
  · refine ⟨fun hc => absurd hc h1, Iff.intro ?_ ?_, fun _ _ _ _ => ⟨_, rfl⟩⟩
    · rintro ⟨e, he⟩
      exact he.elim
    · rintro (hc | hc | hc | hc)
      · exact absurd hc h1
      · exact absurd hc h2
      · exact absurd hc h3
      · exact absurd hc h4

/-- C7: for every plan accepted by `buildOrderRequests`, the single primary
order is a market order with side buy when the exposure difference is
positive and sell otherwise, amount equal to the absolute difference times
equity over price, reduce-only exactly when the target keeps the sign of the
current exposure without exceeding its magnitude or the target is below
`1e-6` in magnitude, and close-all exactly when the target magnitude is
below `1e-6`; close-all forces reduce-only and the close-position
parameter. -/
theorem buildOrderRequests_primary_order (plan : ExecutionPlan) (opts : ExecOptions)
    (h1 : plan.riskStatus = .proceed) (h2 : 0 < plan.marketPrice)
    (h3 : 1 / 1000000 ≤ absQ (plan.targetExposure - plan.currentExposure))
    (h4 : 0 < plan.totalEquity) :
    ∃ o, buildOrderRequests plan opts = .ok [o] ∧
      o.type = "market" ∧
      o.side = (if 0 < plan.targetExposure - plan.currentExposure then "buy" else "sell") ∧
      o.amount = absQ (plan.targetExposure - plan.currentExposure) * plan.totalEquity /
        plan.marketPrice ∧
      (o.reduceOnly = true ↔
        (((0 < plan.targetExposure ∧ 0 < plan.currentExposure) ∨
            (plan.targetExposure < 0 ∧ plan.currentExposure < 0)) ∧
          absQ plan.targetExposure ≤ absQ plan.currentExposure) ∨
        absQ plan.targetExposure < 1 / 1000000) ∧
      (o.closeAll = true ↔ absQ plan.targetExposure < 1 / 1000000) ∧
      (o.closeAll = true → o.reduceOnly = true ∧ o.params.closePosition = true) := by
  have hd : 0 < absQ (plan.targetExposure - plan.currentExposure) :=
    lt_of_lt_of_le (by norm_num) h3
  have hamt : ¬ (absQ (plan.targetExposure - plan.currentExposure) * plan.totalEquity /
      plan.marketPrice ≤ 0) :=
    not_le.mpr (div_pos (mul_pos hd h4) h2)
  have hdiff : plan.targetExposure - plan.currentExposure ≠ 0 := by
    intro hc
    rw [hc] at hd
    simp [absQ] at hd
  refine ⟨primaryOrder plan opts, ?_, rfl, ?_, rfl, ?_, ?_, ?_⟩
  · unfold buildOrderRequests
    rw [if_neg (not_not_intro h1), if_neg (not_le.mpr h2), if_neg (not_lt.mpr h3),
      if_neg (not_le.mpr h4), if_neg hamt]
  · show (if plan.targetExposure - plan.currentExposure < 0 then "sell" else "buy") = _
    rcases lt_or_gt_of_ne hdiff with hneg | hpos
    · rw [if_pos hneg, if_neg (not_lt.mpr (le_of_lt hneg))]
    · rw [if_neg (not_lt.mpr (le_of_lt hpos)), if_pos hpos]
  · show (sameDirection plan.targetExposure plan.currentExposure &&
        decide (absQ plan.targetExposure ≤ absQ plan.currentExposure) ||
        decide (absQ plan.targetExposure < 1 / 1000000)) = true ↔ _
    simp only [Bool.or_eq_true, Bool.and_eq_true, decide_eq_true_eq,
      sameDirection_eq_true_iff]
  · show decide (absQ plan.targetExposure < 1 / 1000000) = true ↔ _
    simp only [decide_eq_true_eq]
  · intro hca
    have hca2 : decide (absQ plan.targetExposure < 1 / 1000000) = true := hca
    constructor
    · show (sameDirection plan.targetExposure plan.currentExposure &&
          decide (absQ plan.targetExposure ≤ absQ plan.currentExposure) ||
          decide (absQ plan.targetExposure < 1 / 1000000)) = true
      rw [hca2, Bool.or_true]
    · show decide (absQ plan.targetExposure < 1 / 1000000) = true
      exact hca2

/-- Witness for C6 at a concrete denied plan: the risk-status error is
returned first even though the price and equity are also invalid. -/
theorem buildOrderRequests_error_characterization_witness :
    (StatusType.deny ≠ StatusType.proceed) ∧
    buildOrderRequests ⟨.deny, 0, 1 / 10, 0, 0, 0, 0⟩ ⟨0, "", false⟩ =
      .error .riskNotAllowed :=
  ⟨by decide,
    (buildOrderRequests_error_characterization ⟨.deny, 0, 1 / 10, 0, 0, 0, 0⟩
      ⟨0, "", false⟩).1 (by decide)⟩

/-- Witness for C7 at Scenario A (equity 100000, current 0, target 0.10,
price 50000): one market buy order of amount 0.2, not reduce-only. -/
theorem buildOrderRequests_primary_order_witness :
    ∃ o, buildOrderRequests ⟨.proceed, 0, 1 / 10, 50000, 100000, 45000, 52000⟩
        ⟨1 / 100, "", false⟩ = .ok [o] ∧
      o.type = "market" ∧ o.side = "buy" ∧ o.amount = 1 / 5 ∧
      o.reduceOnly = false ∧ o.closeAll = false := by
  obtain ⟨o, hbuild, htype, hside, hamount, hro, hca, _⟩ :=
    buildOrderRequests_primary_order ⟨.proceed, 0, 1 / 10, 50000, 100000, 45000, 52000⟩
      ⟨1 / 100, "", false⟩ rfl (by norm_num) (by norm_num [absQ]) (by norm_num)
  refine ⟨o, hbuild, htype, ?_, ?_, ?_, ?_⟩
  · rw [hside]
    norm_num
  · rw [hamount]
    norm_num [absQ]
  · have : ¬ (o.reduceOnly = true) := by
      rw [hro]
      push_neg
      norm_num [absQ]
    simpa using this
  · have : ¬ (o.closeAll = true) := by
      rw [hca]
      norm_num [absQ]
    simpa using this

theorem absQ_mul (a b : ℚ) : absQ (a * b) = absQ a * absQ b := by
  rw [absQ_eq_abs, absQ_eq_abs, absQ_eq_abs, abs_mul]

theorem absQ_of_nonneg {x : ℚ} (h : 0 ≤ x) : absQ x = x := by
  unfold absQ
  rw [if_neg (not_lt.mpr h)]

theorem resolveExposureSign_abs (direction : String) (current : ℚ) (side intent : String)
    (hD : direction ≠ "FLAT") :
    absQ (resolveExposureSign direction current side intent) = 1 := by
  unfold resolveExposureSign copysign
  split_ifs <;> norm_num [absQ]

/-- C3 counterexample: for intent ADJUST, direction LONG, current exposure
0.2, a decision giving both targetExposurePct = 0.1 and adjustmentPct =
0.05 derives the exposure 0.25 (current plus adjustment), whose magnitude is
not the given targetExposurePct. -/
theorem deriveDesiredExposure_target_not_honored :
    upperStr "ADJUST" ≠ "CLOSE" ∧ upperStr "LONG" ≠ "FLAT" ∧ (0 : ℚ) < 1 / 10 ∧
      ((1 : ℚ) / 20) ≠ 0 ∧
      absQ (deriveDesiredExposure "ADJUST" "LONG" (1 / 10) (1 / 20) (1 / 5) "") ≠ 1 / 10 ∧
      deriveDesiredExposure "ADJUST" "LONG" (1 / 10) (1 / 20) (1 / 5) "" = 1 / 4 := by
  have hd : deriveDesiredExposure "ADJUST" "LONG" (1 / 10) (1 / 20) (1 / 5) "" = 1 / 4 := by
    simp +decide only [deriveDesiredExposure, resolveExposureSign]
    norm_num
  refine ⟨by decide, by decide, by norm_num, by norm_num, ?_, hd⟩
  rw [hd]
  norm_num [absQ]

/-- C3 (amended): in `deriveDesiredExposure`, for intent other than CLOSE and
direction other than FLAT, a nonzero adjustmentPct takes precedence: the
derived exposure is current + adjustmentPct times the resolved sign even
when a positive targetExposurePct is given; only when adjustmentPct = 0 does
the derived magnitude equal targetExposurePct whenever targetExposurePct > 0
(and, scaled by the sign, also when the current exposure is below epsilon),
the derived exposure falling back to the current exposure otherwise. -/
theorem deriveDesiredExposure_amended (intent direction : String)
    (target adjustment current : ℚ) (side : String)
    (hI : upperStr intent ≠ "CLOSE") (hD : upperStr direction ≠ "FLAT") :
    (adjustment ≠ 0 →
      deriveDesiredExposure intent direction target adjustment current side =
        current + adjustment *
          resolveExposureSign (upperStr direction) current side (upperStr intent)) ∧
    (adjustment = 0 → 0 < target →
      deriveDesiredExposure intent direction target adjustment current side =
        target * resolveExposureSign (upperStr direction) current side (upperStr intent) ∧
      absQ (deriveDesiredExposure intent direction target adjustment current side) =
        target) ∧
    (adjustment = 0 → target ≤ 0 → absQ current < exposureEpsilon →
      deriveDesiredExposure intent direction target adjustment current side =
        target * resolveExposureSign (upperStr direction) current side (upperStr intent)) ∧
    (adjustment = 0 → target ≤ 0 → exposureEpsilon ≤ absQ current →
      deriveDesiredExposure intent direction target adjustment current side = current) := by
  have hcond : ¬ (upperStr intent = "CLOSE" ∨ upperStr direction = "FLAT") := by
    rintro (h | h)
    · exact hI h
    · exact hD h
  unfold deriveDesiredExposure
  rw [if_neg hcond]
  refine ⟨fun ha => ?_, fun ha ht => ?_, fun ha ht hc => ?_, fun ha ht hc => ?_⟩
  · rw [if_pos ha]
  · rw [if_neg (not_not_intro ha), if_pos ht]
    refine ⟨rfl, ?_⟩
    rw [absQ_mul, resolveExposureSign_abs _ _ _ _ hD, mul_one, absQ_of_nonneg ht.le]
  · rw [if_neg (not_not_intro ha), if_neg (not_lt.mpr ht), if_pos hc]
  · rw [if_neg (not_not_intro ha), if_neg (not_lt.mpr ht), if_neg (not_lt.mpr hc)]

/-- Witness for the amended C3: with both targetExposurePct = 0.1 and
adjustmentPct = 0.05 given, the adjustment branch applies and yields 0.25. -/
theorem deriveDesiredExposure_amended_witness :
    ((1 : ℚ) / 20) ≠ 0 ∧
    deriveDesiredExposure "ADJUST" "LONG" (1 / 10) (1 / 20) (1 / 5) "" =
      1 / 5 + 1 / 20 * resolveExposureSign (upperStr "LONG") (1 / 5) "" (upperStr "ADJUST") :=
  ⟨by norm_num,
    (deriveDesiredExposure_amended "ADJUST" "LONG" (1 / 10) (1 / 20) (1 / 5) ""
      (by decide) (by decide)).1 (by norm_num)⟩

theorem exposureEpsilon_pos : (0 : ℚ) < exposureEpsilon := by norm_num [exposureEpsilon]

theorem absQ_neg (x : ℚ) : absQ (-x) = absQ x := by
  rw [absQ_eq_abs, absQ_eq_abs, abs_neg]

theorem absQ_idem (x : ℚ) : absQ (absQ x) = absQ x :=
  absQ_of_nonneg (absQ_nonneg x)

theorem absQ_copysign (x y : ℚ) : absQ (copysign x y) = absQ x := by
  unfold copysign
  split_ifs
  · rw [absQ_neg, absQ_idem]
  · rw [absQ_idem]

theorem minQ_le_left (x y : ℚ) : minQ x y ≤ x := by
  unfold minQ
  split_ifs with h
  · exact le_refl x
  · exact (not_le.mp h).le

theorem effectiveMaxExposure_of_pos {cfg : RiskConfig} (h : 0 < cfg.maxExposure) :
    effectiveMaxExposure cfg = cfg.maxExposure := by
  unfold effectiveMaxExposure
  rw [if_neg (not_le.mpr h)]

theorem clampExposure_abs_le {m : ℚ} (hm : 0 ≤ m) (d : ℚ) :
    absQ (clampExposure m d) ≤ m := by
  unfold clampExposure
  split_ifs with h
  · rw [absQ_copysign, absQ_of_nonneg hm]
  · exact not_lt.mp h

theorem clampExposure_of_big {m d : ℚ} (hm : 0 ≤ m) (h : m < absQ d) :
    clampExposure m d = if d < 0 then -m else m := by
  unfold clampExposure copysign
  rw [if_pos h]
  split_ifs
  · rw [absQ_of_nonneg hm]
  · rw [absQ_of_nonneg hm]

theorem capTargetByRisk_le (m t : ℚ) : capTargetByRisk m t ≤ m := by
  unfold capTargetByRisk
  split_ifs with h
  · exact le_refl m
  · exact not_lt.mp h

theorem evaluateIncrease_spec (cfg : RiskConfig) (input : EvaluationInput)
    (base : EvaluationResult) (notes2 : List String) (maxExp desired2 recStop : ℚ)
    (cf : ℚ × ℚ) (targetDirection : String) (r : EvaluationResult)
    (hr : r = evaluateIncrease cfg input base notes2 maxExp desired2 recStop cf targetDirection) :
    (r.status = base.status ∧ r.targetExposurePercent = base.targetExposurePercent) ∨
    (r.status = .proceed ∧ absQ r.targetExposurePercent ≤ absQ desired2) := by
  unfold evaluateIncrease at hr
  simp only [] at hr
  split at hr
  · subst hr; exact Or.inl ⟨rfl, rfl⟩
  · split at hr
    · subst hr; exact Or.inl ⟨rfl, rfl⟩
    · split at hr
      · subst hr; exact Or.inl ⟨rfl, rfl⟩
      · next h12 =>
        split at hr
        · subst hr; exact Or.inl ⟨rfl, rfl⟩
        · subst hr
          refine Or.inr ⟨rfl, ?_⟩
          have hfa : (0 : ℚ) < minQ (absQ desired2) (capTargetByRisk maxExp
              (cfg.maxTradeRisk * cf.1 * (input.marketPrice /
                computeStopDistance targetDirection input.marketPrice recStop))) :=
            lt_trans exposureEpsilon_pos (not_le.mp h12)
          rw [absQ_copysign, absQ_of_nonneg hfa.le]
          exact minQ_le_left _ _

theorem evaluateAdjust_spec (input : EvaluationInput) (base : EvaluationResult)
    (notes2 : List String) (desired2 recStop : ℚ) (cf : ℚ × ℚ) (r : EvaluationResult)
    (hr : r = evaluateAdjust input base notes2 desired2 recStop cf) :
    (r.status = base.status ∧ r.targetExposurePercent = base.targetExposurePercent) ∨
    (r.status = .proceed ∧ r.targetExposurePercent = desired2) := by
  unfold evaluateAdjust at hr
  split at hr
  · subst hr; exact Or.inl ⟨rfl, rfl⟩
  · subst hr; exact Or.inr ⟨rfl, rfl⟩

theorem evaluateMain_spec (cfg : RiskConfig) (input : EvaluationInput) (status : DailyStatus)
    (base : EvaluationResult) (notes1 : List String) (desired : ℚ) (r : EvaluationResult)
    (hr : r = evaluateMain cfg input status base notes1 desired) :
    (r.status = base.status ∧ r.targetExposurePercent = base.targetExposurePercent) ∨
    (r.status = .proceed ∧
      ¬(status.halted = true ∧
        (absQ input.account.currentExposurePercent + exposureEpsilon <
            absQ (clampExposure (effectiveMaxExposure cfg) desired) ∨
          clampExposure (effectiveMaxExposure cfg) desired *
            input.account.currentExposurePercent < 0)) ∧
      (((absQ input.account.currentExposurePercent + exposureEpsilon <
            absQ (clampExposure (effectiveMaxExposure cfg) desired) ∨
          clampExposure (effectiveMaxExposure cfg) desired *
            input.account.currentExposurePercent < 0) ∧
        0 < (confidenceFactor cfg input.decision.confidence).1 ∧
        absQ r.targetExposurePercent ≤ absQ (clampExposure (effectiveMaxExposure cfg) desired)) ∨
      (¬(absQ input.account.currentExposurePercent + exposureEpsilon <
            absQ (clampExposure (effectiveMaxExposure cfg) desired) ∨
          clampExposure (effectiveMaxExposure cfg) desired *
            input.account.currentExposurePercent < 0) ∧
        r.targetExposurePercent = clampExposure (effectiveMaxExposure cfg) desired))) := by
  unfold evaluateMain at hr
  simp only [] at hr
  split at hr
  · subst hr; exact Or.inl ⟨rfl, rfl⟩
  · split at hr
    · subst hr; exact Or.inl ⟨rfl, rfl⟩
    · split at hr
      · subst hr; exact Or.inl ⟨rfl, rfl⟩
      · next h5 =>
        split at hr
        · subst hr; exact Or.inl ⟨rfl, rfl⟩
        · split at hr
          · subst hr; exact Or.inl ⟨rfl, rfl⟩
          · split at hr
            · subst hr; exact Or.inl ⟨rfl, rfl⟩
            · next h8 =>
              split at hr
              · next h9 =>
                rcases evaluateIncrease_spec cfg input base _ _ _ _ _ _ r hr with
                  ⟨hs, ht⟩ | ⟨hs, ht⟩
                · exact Or.inl ⟨hs, ht⟩
                · exact Or.inr ⟨hs, h5,
                    Or.inl ⟨h9, not_le.mp (fun hle => h8 ⟨h9, hle⟩), ht⟩⟩
              · next h9 =>
                rcases evaluateAdjust_spec input base _ _ _ _ r hr with
                  ⟨hs, ht⟩ | ⟨hs, ht⟩
                · exact Or.inl ⟨hs, ht⟩
                · exact Or.inr ⟨hs, h5, Or.inr ⟨h9, ht⟩⟩

theorem evaluate_spec (cfg : RiskConfig) (input : EvaluationInput) (status : DailyStatus)
    (r : EvaluationResult) (hr : r = evaluate cfg input status) :
    r.status = .deny ∨
    (r.status = .proceed ∧
      ((absQ (desiredExposureOf input) < exposureEpsilon ∧
        exposureEpsilon ≤ absQ input.account.currentExposurePercent ∧
        r.targetExposurePercent = 0 ∧ r.riskAmount = 0) ∨
      (exposureEpsilon ≤ absQ (desiredExposureOf input) ∧
        ¬(status.halted = true ∧ increaseOf cfg input) ∧
        ((increaseOf cfg input ∧
          0 < (confidenceFactor cfg input.decision.confidence).1 ∧
          absQ r.targetExposurePercent ≤ absQ (desired2Of cfg input)) ∨
        (¬increaseOf cfg input ∧
          r.targetExposurePercent = desired2Of cfg input))))) := by
  unfold evaluate at hr
  simp only [] at hr
  split at hr
  · next h1 =>
    split at hr
    · subst hr; exact Or.inl rfl
    · next h2 =>
      subst hr
      exact Or.inr ⟨rfl, Or.inl ⟨h1, not_lt.mp h2, rfl, rfl⟩⟩
  · next h1 =>
    rcases evaluateMain_spec cfg input status _ _ _ r hr with ⟨hs, _⟩ | ⟨hs, hhalt, hcase⟩
    · exact Or.inl hs
    · exact Or.inr ⟨hs, Or.inr ⟨not_lt.mp h1, by
        simpa only [increaseOf, desired2Of] using hhalt, by
        simpa only [increaseOf, desired2Of] using hcase⟩⟩

/-- C5: with a positive configured maxExposure, clamping an over-limit
desired exposure yields exactly maxExposure carrying the original sign, the
risk-based target cap never exceeds maxExposure, and every proceed result of
`Evaluate` satisfies |targetExposurePercent| ≤ maxExposure. -/
theorem evaluate_exposure_bounded (cfg : RiskConfig) (input : EvaluationInput)
    (status : DailyStatus) (hmax : 0 < cfg.maxExposure) :
    (∀ d : ℚ, cfg.maxExposure < absQ d →
      clampExposure (effectiveMaxExposure cfg) d =
        (if d < 0 then -cfg.maxExposure else cfg.maxExposure) ∧
      absQ (clampExposure (effectiveMaxExposure cfg) d) = cfg.maxExposure) ∧
    (∀ t : ℚ, capTargetByRisk (effectiveMaxExposure cfg) t ≤ cfg.maxExposure) ∧
    ((evaluate cfg input status).status = .proceed →
      absQ (evaluate cfg input status).targetExposurePercent ≤ cfg.maxExposure) := by
  have heff := effectiveMaxExposure_of_pos hmax
  refine ⟨fun d hd => ?_, fun t => ?_, fun hst => ?_⟩
  · rw [heff]
    refine ⟨clampExposure_of_big hmax.le hd, ?_⟩
    rw [clampExposure_of_big hmax.le hd]
    split_ifs
    · rw [absQ_neg, absQ_of_nonneg hmax.le]
    · rw [absQ_of_nonneg hmax.le]
  · rw [heff]
    exact capTargetByRisk_le _ _
  · rcases evaluate_spec cfg input status _ rfl with hdeny | ⟨_, hcase⟩
    · rw [hdeny] at hst
      exact StatusType.noConfusion hst
    · rcases hcase with ⟨_, _, ht0, _⟩ | ⟨_, _, hsub⟩
      · rw [ht0, show absQ 0 = 0 from by norm_num [absQ]]
        exact hmax.le
      · have hbound : absQ (desired2Of cfg input) ≤ cfg.maxExposure := by
          unfold desired2Of
          rw [heff]
          exact clampExposure_abs_le hmax.le _
        rcases hsub with ⟨_, _, hle⟩ | ⟨_, hteq⟩
        · exact le_trans hle hbound
        · rw [hteq]
          exact hbound

/-- Witness for C5: with maxExposure = 0.2, an over-limit desired exposure
of 0.3 is clamped to exactly 0.2. -/
theorem evaluate_exposure_bounded_witness :
    (0 : ℚ) < 1 / 5 ∧
    clampExposure (effectiveMaxExposure ⟨1 / 100, 3 / 100, 1 / 5, 4 / 5, 3 / 5⟩) (3 / 10) =
      1 / 5 := by
  refine ⟨by norm_num, ?_⟩
  have h := (evaluate_exposure_bounded ⟨1 / 100, 3 / 100, 1 / 5, 4 / 5, 3 / 5⟩
    ⟨⟨"", "", 0, 0, 0, 0, 0, ""⟩, ⟨0⟩, ⟨""⟩, ⟨0, 0⟩, 0⟩ ⟨"", 0, 0, 0, false⟩
    (by norm_num)).1 (3 / 10) (by norm_num [absQ])
  rw [h.1]
  norm_num

/-- C2: while the day is halted, `Evaluate` never proceeds with a target
that grows the exposure magnitude by more than epsilon or flips its sign;
and whenever the derived desired exposure is below epsilon in magnitude
while the current exposure is not, `Evaluate` proceeds with target 0 and
risk amount 0 regardless of the halted flag. -/
theorem evaluate_halted_blocks_increase (cfg : RiskConfig) (input : EvaluationInput)
    (status : DailyStatus) :
    (status.halted = true → (evaluate cfg input status).status = .proceed →
      ¬(absQ input.account.currentExposurePercent + exposureEpsilon <
          absQ (evaluate cfg input status).targetExposurePercent ∨
        (evaluate cfg input status).targetExposurePercent *
          input.account.currentExposurePercent < 0)) ∧
    (absQ (desiredExposureOf input) < exposureEpsilon →
      exposureEpsilon ≤ absQ input.account.currentExposurePercent →
      (evaluate cfg input status).status = .proceed ∧
      (evaluate cfg input status).targetExposurePercent = 0 ∧
      (evaluate cfg input status).riskAmount = 0) := by
  constructor
  · intro hhalt hst
    rcases evaluate_spec cfg input status _ rfl with hdeny | ⟨_, hcase⟩
    · rw [hdeny] at hst
      exact StatusType.noConfusion hst
    · rcases hcase with ⟨_, _, ht0, _⟩ | ⟨_, hnothalt, hsub⟩
      · rw [ht0, show absQ 0 = 0 from by norm_num [absQ]]
        rintro (h | h)
        · have : (0 : ℚ) < absQ input.account.currentExposurePercent + exposureEpsilon :=
            lt_of_lt_of_le exposureEpsilon_pos (le_add_of_nonneg_left (absQ_nonneg _))
          exact absurd h (not_lt.mpr this.le)
        · rw [zero_mul] at h
          exact lt_irrefl 0 h
      · have hninc : ¬increaseOf cfg input := fun hi => hnothalt ⟨hhalt, hi⟩
        rcases hsub with ⟨hinc, _⟩ | ⟨_, hteq⟩
        · exact absurd hinc hninc
        · rw [hteq]
          exact hninc
  · intro h1 h2
    simp only [evaluate]
    rw [if_pos h1, if_neg (not_lt.mpr h2)]
    exact ⟨rfl, rfl, rfl⟩

/-- Witness for C2: a CLOSE decision on a halted day with current exposure
0.1 still proceeds with target 0 and risk amount 0. -/
theorem evaluate_halted_blocks_increase_witness :
    absQ (desiredExposureOf ⟨⟨"CLOSE", "", 0, 0, 0, 0, 0, ""⟩, ⟨0⟩, ⟨""⟩, ⟨1000, 1 / 10⟩,
        50000⟩) < exposureEpsilon ∧
    exposureEpsilon ≤ absQ ((⟨⟨"CLOSE", "", 0, 0, 0, 0, 0, ""⟩, ⟨0⟩, ⟨""⟩, ⟨1000, 1 / 10⟩,
        50000⟩ : EvaluationInput).account.currentExposurePercent) ∧
    (evaluate ⟨1 / 100, 3 / 100, 1 / 5, 4 / 5, 3 / 5⟩
      ⟨⟨"CLOSE", "", 0, 0, 0, 0, 0, ""⟩, ⟨0⟩, ⟨""⟩, ⟨1000, 1 / 10⟩, 50000⟩
      ⟨"2026-01-01", 100000, 96000, -1 / 25, true⟩).status = .proceed ∧
    (evaluate ⟨1 / 100, 3 / 100, 1 / 5, 4 / 5, 3 / 5⟩
      ⟨⟨"CLOSE", "", 0, 0, 0, 0, 0, ""⟩, ⟨0⟩, ⟨""⟩, ⟨1000, 1 / 10⟩, 50000⟩
      ⟨"2026-01-01", 100000, 96000, -1 / 25, true⟩).targetExposurePercent = 0 := by
  have hd : desiredExposureOf ⟨⟨"CLOSE", "", 0, 0, 0, 0, 0, ""⟩, ⟨0⟩, ⟨""⟩,
      ⟨1000, 1 / 10⟩, 50000⟩ = 0 := by
    simp +decide only [desiredExposureOf, normalizedIntent, normalizedDirection,
      deriveDesiredExposure]
  have h1 : absQ (desiredExposureOf ⟨⟨"CLOSE", "", 0, 0, 0, 0, 0, ""⟩, ⟨0⟩, ⟨""⟩,
      ⟨1000, 1 / 10⟩, 50000⟩) < exposureEpsilon := by
    rw [hd]
    norm_num [absQ, exposureEpsilon]
  have h2 : exposureEpsilon ≤ absQ ((⟨⟨"CLOSE", "", 0, 0, 0, 0, 0, ""⟩, ⟨0⟩, ⟨""⟩,
      ⟨1000, 1 / 10⟩, 50000⟩ : EvaluationInput).account.currentExposurePercent) := by
    norm_num [absQ, exposureEpsilon]
  have h := (evaluate_halted_blocks_increase ⟨1 / 100, 3 / 100, 1 / 5, 4 / 5, 3 / 5⟩
    ⟨⟨"CLOSE", "", 0, 0, 0, 0, 0, ""⟩, ⟨0⟩, ⟨""⟩, ⟨1000, 1 / 10⟩, 50000⟩
    ⟨"2026-01-01", 100000, 96000, -1 / 25, true⟩).2 h1 h2
  exact ⟨h1, h2, h.1, h.2.1⟩

/-- C4 counterexample: a decision whose derived desired exposure flips the
sign of the current exposure (an exposure-increasing decision in the sense
of the claim) but has magnitude below epsilon, together with confidence 0
below confidenceHalfRisk, makes `Evaluate` proceed (full close) instead of
denying. -/
theorem evaluate_confidence_gate_counterexample :
    desiredExposureOf ⟨⟨"ADJUST", "SHORT", 0, 1000005 / 10000000, 0, 0, 0, ""⟩, ⟨0⟩, ⟨""⟩,
        ⟨1000, 1 / 10⟩, 50000⟩ *
      (⟨⟨"ADJUST", "SHORT", 0, 1000005 / 10000000, 0, 0, 0, ""⟩, ⟨0⟩, ⟨""⟩,
        ⟨1000, 1 / 10⟩, 50000⟩ : EvaluationInput).account.currentExposurePercent < 0 ∧
    ((⟨⟨"ADJUST", "SHORT", 0, 1000005 / 10000000, 0, 0, 0, ""⟩, ⟨0⟩, ⟨""⟩,
        ⟨1000, 1 / 10⟩, 50000⟩ : EvaluationInput).decision.confidence <
      (⟨1 / 100, 3 / 100, 1 / 5, 4 / 5, 3 / 5⟩ : RiskConfig).confidenceHalfRisk) ∧
    (evaluate ⟨1 / 100, 3 / 100, 1 / 5, 4 / 5, 3 / 5⟩
      ⟨⟨"ADJUST", "SHORT", 0, 1000005 / 10000000, 0, 0, 0, ""⟩, ⟨0⟩, ⟨""⟩,
        ⟨1000, 1 / 10⟩, 50000⟩
      ⟨"2026-01-01", 1000, 1000, 0, false⟩).status = .proceed := by
  have hd : desiredExposureOf ⟨⟨"ADJUST", "SHORT", 0, 1000005 / 10000000, 0, 0, 0, ""⟩,
      ⟨0⟩, ⟨""⟩, ⟨1000, 1 / 10⟩, 50000⟩ = -(1 / 2000000) := by
    simp +decide only [desiredExposureOf, normalizedIntent, normalizedDirection,
      deriveDesiredExposure, resolveExposureSign]
    norm_num
  refine ⟨?_, by norm_num, ?_⟩
  · rw [hd]
    norm_num
  · simp only [evaluate, hd]
    norm_num [absQ, exposureEpsilon]

/-- C4 (amended): the confidence factor is the two-threshold step function;
and for every evaluation input whose desired exposure is at least epsilon in
magnitude and — after clamping to the maximum exposure — still increases the
exposure magnitude by more than epsilon or flips its sign, a confidence
below confidenceHalfRisk (with confidenceHalfRisk ≤ confidenceFullRisk, as
configuration validation guarantees) forces `Evaluate` to deny. -/
theorem evaluate_confidence_gate (cfg : RiskConfig) (input : EvaluationInput)
    (status : DailyStatus)
    (hcfg : cfg.confidenceHalfRisk ≤ cfg.confidenceFullRisk)
    (hd : exposureEpsilon ≤ absQ (desiredExposureOf input))
    (hinc : increaseOf cfg input)
    (hconf : input.decision.confidence < cfg.confidenceHalfRisk) :
    (∀ c : ℚ, (cfg.confidenceFullRisk ≤ c → confidenceFactor cfg c = (1, 1)) ∧
      (c < cfg.confidenceFullRisk → cfg.confidenceHalfRisk ≤ c →
        confidenceFactor cfg c = (1 / 2, 1 / 2)) ∧
      (c < cfg.confidenceFullRisk → c < cfg.confidenceHalfRisk →
        confidenceFactor cfg c = (0, 0))) ∧
    (evaluate cfg input status).status = .deny := by
  have hfact : confidenceFactor cfg input.decision.confidence = (0, 0) := by
    unfold confidenceFactor
    rw [if_neg (not_le.mpr (lt_of_lt_of_le hconf hcfg)), if_neg (not_le.mpr hconf)]
  refine ⟨fun c => ⟨fun h => ?_, fun h1 h2 => ?_, fun h1 h2 => ?_⟩, ?_⟩
  · unfold confidenceFactor
    rw [if_pos h]
  · unfold confidenceFactor
    rw [if_neg (not_le.mpr h1), if_pos h2]
  · unfold confidenceFactor
    rw [if_neg (not_le.mpr h1), if_neg (not_le.mpr h2)]
  · rcases evaluate_spec cfg input status _ rfl with hdeny | ⟨_, hcase⟩
    · exact hdeny
    · exfalso
      rcases hcase with ⟨hlt, _⟩ | ⟨_, _, hsub⟩
      · exact absurd hlt (not_lt.mpr hd)
      · rcases hsub with ⟨_, hpos, _⟩ | ⟨hninc, _⟩
        · rw [hfact] at hpos
          exact lt_irrefl 0 hpos
        · exact hninc hinc

/-- Witness for the amended C4: an opening LONG decision for 10% exposure
with confidence 0.5 below the half-risk threshold 0.6 is denied. -/
theorem evaluate_confidence_gate_witness :
    ((⟨1 / 100, 3 / 100, 1 / 5, 4 / 5, 3 / 5⟩ : RiskConfig).confidenceHalfRisk ≤
      (⟨1 / 100, 3 / 100, 1 / 5, 4 / 5, 3 / 5⟩ : RiskConfig).confidenceFullRisk) ∧
    exposureEpsilon ≤ absQ (desiredExposureOf ⟨⟨"OPEN", "LONG", 1 / 10, 0, 1 / 2, 0, 0, ""⟩,
      ⟨0⟩, ⟨""⟩, ⟨1000, 0⟩, 50000⟩) ∧
    increaseOf ⟨1 / 100, 3 / 100, 1 / 5, 4 / 5, 3 / 5⟩
      ⟨⟨"OPEN", "LONG", 1 / 10, 0, 1 / 2, 0, 0, ""⟩, ⟨0⟩, ⟨""⟩, ⟨1000, 0⟩, 50000⟩ ∧
    (evaluate ⟨1 / 100, 3 / 100, 1 / 5, 4 / 5, 3 / 5⟩
      ⟨⟨"OPEN", "LONG", 1 / 10, 0, 1 / 2, 0, 0, ""⟩, ⟨0⟩, ⟨""⟩, ⟨1000, 0⟩, 50000⟩
      ⟨"2026-01-01", 1000, 1000, 0, false⟩).status = .deny := by
  have hd : desiredExposureOf ⟨⟨"OPEN", "LONG", 1 / 10, 0, 1 / 2, 0, 0, ""⟩, ⟨0⟩, ⟨""⟩,
      ⟨1000, 0⟩, 50000⟩ = 1 / 10 := by
    simp +decide only [desiredExposureOf, normalizedIntent, normalizedDirection,
      deriveDesiredExposure, resolveExposureSign]
    norm_num
  have h1 : exposureEpsilon ≤ absQ (desiredExposureOf ⟨⟨"OPEN", "LONG", 1 / 10, 0, 1 / 2,
      0, 0, ""⟩, ⟨0⟩, ⟨""⟩, ⟨1000, 0⟩, 50000⟩) := by
    rw [hd]
    norm_num [absQ, exposureEpsilon]
  have h2 : increaseOf ⟨1 / 100, 3 / 100, 1 / 5, 4 / 5, 3 / 5⟩
      ⟨⟨"OPEN", "LONG", 1 / 10, 0, 1 / 2, 0, 0, ""⟩, ⟨0⟩, ⟨""⟩, ⟨1000, 0⟩, 50000⟩ := by
    unfold increaseOf desired2Of
    rw [hd]
    left
    norm_num [absQ, exposureEpsilon, clampExposure, copysign, effectiveMaxExposure]
  exact ⟨by norm_num, h1, h2,
    (evaluate_confidence_gate _ _ _ (by norm_num) h1 h2 (by norm_num)).2⟩

theorem selectStop_long_cases (s atr p : ℚ) :
    selectStop "LONG" s atr p = 0 ∨
    (0 < selectStop "LONG" s atr p ∧ selectStop "LONG" s atr p < p) := by
  unfold selectStop
  rw [if_neg (by decide : ¬("LONG" = "SHORT"))]
  simp only []
  split_ifs <;> first
    | (left; rfl)
    | (right; constructor <;> linarith)
    | (right; constructor <;> (unfold maxQ; split_ifs <;> linarith))

theorem selectStop_short_cases (s atr p : ℚ) :
    selectStop "SHORT" s atr p = 0 ∨
    (0 < selectStop "SHORT" s atr p ∧ p < selectStop "SHORT" s atr p) := by
  unfold selectStop
  rw [if_pos rfl]
  simp only []
  split_ifs <;> first
    | (left; rfl)
    | (right; constructor <;> linarith)
    | (right; constructor <;> (unfold minQ; split_ifs <;> linarith))

theorem computeStopDistance_long (p stop : ℚ) :
    computeStopDistance "LONG" p stop = p - stop := by
  unfold computeStopDistance
  rw [if_neg (by decide : ¬("LONG" = "SHORT"))]

theorem computeStopDistance_short (p stop : ℚ) :
    computeStopDistance "SHORT" p stop = stop - p := by
  unfold computeStopDistance
  rw [if_pos rfl]

theorem orientationLabel_of_eps {v : ℚ} (h : exposureEpsilon < absQ v) :
    orientationLabel v = "LONG" ∨ orientationLabel v = "SHORT" := by
  unfold orientationLabel
  split_ifs with h1 h2
  · exact Or.inl rfl
  · exact Or.inr rfl
  · exfalso
    unfold absQ at h
    split_ifs at h with hv
    · exact absurd h (not_lt.mpr (by linarith [not_lt.mp h2]))
    · exact absurd h (not_lt.mpr (not_lt.mp h1))

theorem stopDistance_pos_of_selected {v s atr p : ℚ}
    (hv : exposureEpsilon < absQ v)
    (hstop : 0 < selectStop (orientationLabel v) s atr p) :
    0 < computeStopDistance (orientationLabel v) p (selectStop (orientationLabel v) s atr p) := by
  rcases orientationLabel_of_eps hv with hl | hl <;> rw [hl] at hstop ⊢
  · rcases selectStop_long_cases s atr p with hz | ⟨_, hlt⟩
    · rw [hz] at hstop
      exact absurd hstop (lt_irrefl 0)
    · rw [computeStopDistance_long]
      linarith
  · rcases selectStop_short_cases s atr p with hz | ⟨_, hlt⟩
    · rw [hz] at hstop
      exact absurd hstop (lt_irrefl 0)
    · rw [computeStopDistance_short]
      linarith

theorem not_mem_append_singleton {bad tag : String} {l : List String}
    (hl : bad ∉ l) (ht : ¬ bad = tag) : bad ∉ l ++ [tag] := by
  simp only [List.mem_append, List.mem_singleton]
  rintro (h | h)
  · exact hl h
  · exact ht h

theorem evaluateIncrease_notes (cfg : RiskConfig) (input : EvaluationInput)
    (base : EvaluationResult) (notes2 : List String) (maxExp desired2 recStop : ℚ)
    (cf : ℚ × ℚ) (targetDirection : String) (r : EvaluationResult)
    (hr : r = evaluateIncrease cfg input base notes2 maxExp desired2 recStop cf targetDirection) :
    ∃ tag, r.notes = notes2 ++ [tag] ∧ ¬ "stop position unreasonable" = tag := by
  unfold evaluateIncrease at hr
  simp only [] at hr
  split at hr
  · subst hr; exact ⟨_, rfl, by decide⟩
  · split at hr
    · subst hr; exact ⟨_, rfl, by decide⟩
    · split at hr
      · subst hr; exact ⟨_, rfl, by decide⟩
      · split at hr
        · subst hr; exact ⟨_, rfl, by decide⟩
        · subst hr; exact ⟨_, rfl, by decide⟩

theorem evaluateAdjust_notes (input : EvaluationInput) (base : EvaluationResult)
    (notes2 : List String) (desired2 recStop : ℚ) (cf : ℚ × ℚ) (r : EvaluationResult)
    (hr : r = evaluateAdjust input base notes2 desired2 recStop cf) :
    ∃ tag, r.notes = notes2 ++ [tag] ∧ ¬ "stop position unreasonable" = tag := by
  unfold evaluateAdjust at hr
  split at hr
  · subst hr; exact ⟨_, rfl, by decide⟩
  · subst hr; exact ⟨_, rfl, by decide⟩

theorem evaluateMain_no_bad_note (cfg : RiskConfig) (input : EvaluationInput)
    (status : DailyStatus) (base : EvaluationResult) (notes1 : List String) (desired : ℚ)
    (r : EvaluationResult) (hr : r = evaluateMain cfg input status base notes1 desired)
    (hne : "stop position unreasonable" ∉ notes1) :
    "stop position unreasonable" ∉ r.notes := by
  have hn2 : "stop position unreasonable" ∉
      (if effectiveMaxExposure cfg < absQ desired then notes1 ++ ["clamped to max exposure"]
        else notes1) := by
    split_ifs
    · exact not_mem_append_singleton hne (by decide)
    · exact hne
  unfold evaluateMain at hr
  simp only [] at hr
  split at hr
  · subst hr
    exact not_mem_append_singleton hn2 (by decide)
  · split at hr
    · subst hr
      exact not_mem_append_singleton hn2 (by decide)
    · split at hr
      · subst hr
        exact not_mem_append_singleton hn2 (by decide)
      · split at hr
        · subst hr
          exact not_mem_append_singleton hn2 (by decide)
        · next h6 =>
          split at hr
          · next h7 =>
            exfalso
            have hstop : 0 < selectStop
                (orientationLabel (clampExposure (effectiveMaxExposure cfg) desired))
                input.decision.newStopLoss input.features.atrAbsolute input.marketPrice :=
              not_le.mp (fun hle => h6 ⟨h7.1, hle⟩)
            exact absurd (stopDistance_pos_of_selected h7.1 hstop) (not_lt.mpr h7.2)
          · split at hr
            · subst hr
              exact not_mem_append_singleton hn2 (by decide)
            · split at hr
              · obtain ⟨tag, hnotes, htag⟩ :=
                  evaluateIncrease_notes cfg input base _ _ _ _ _ _ r hr
                rw [hnotes]
                exact not_mem_append_singleton hn2 htag
              · obtain ⟨tag, hnotes, htag⟩ :=
                  evaluateAdjust_notes input base _ _ _ _ r hr
                rw [hnotes]
                exact not_mem_append_singleton hn2 htag

theorem evaluate_no_bad_note (cfg : RiskConfig) (input : EvaluationInput)
    (status : DailyStatus) :
    "stop position unreasonable" ∉ (evaluate cfg input status).notes := by
  suffices h : ∀ r, r = evaluate cfg input status →
      "stop position unreasonable" ∉ r.notes from h _ rfl
  intro r hr
  have hne : "stop position unreasonable" ∉
      ((if upperStr (trimStr input.decision.orderPreference) ≠ "" then
        ["order preference noted"] else []) ++ ["ai desired exposure derived"]) := by
    refine not_mem_append_singleton ?_ (by decide)
    split_ifs
    · simp only [List.mem_singleton]
      decide
    · simp only [List.not_mem_nil]
      exact not_false
  unfold evaluate at hr
  simp only [] at hr
  split at hr
  · split at hr
    · subst hr
      exact not_mem_append_singleton hne (by decide)
    · subst hr
      exact not_mem_append_singleton hne (by decide)
  · exact evaluateMain_no_bad_note cfg input status _ _ _ r hr hne

/-- C9: with a positive market price, every nonzero stop selected for a LONG
target lies strictly below the price and every nonzero stop selected for a
SHORT target strictly above it, so the stop distance of a positive selected
stop is positive and the deny branch of `Evaluate` for a non-positive stop
distance is unreachable: its note never appears in any evaluation result. -/
theorem selectStop_sound (s atr p : ℚ) (_hp : 0 < p) (cfg : RiskConfig)
    (input : EvaluationInput) (status : DailyStatus) :
    (selectStop "LONG" s atr p ≠ 0 → selectStop "LONG" s atr p < p) ∧
    (selectStop "SHORT" s atr p ≠ 0 → p < selectStop "SHORT" s atr p) ∧
    (0 < selectStop "LONG" s atr p →
      0 < computeStopDistance "LONG" p (selectStop "LONG" s atr p)) ∧
    (0 < selectStop "SHORT" s atr p →
      0 < computeStopDistance "SHORT" p (selectStop "SHORT" s atr p)) ∧
    "stop position unreasonable" ∉ (evaluate cfg input status).notes := by
  refine ⟨?_, ?_, ?_, ?_, evaluate_no_bad_note cfg input status⟩
  · intro h
    rcases selectStop_long_cases s atr p with hz | ⟨_, hlt⟩
    · exact absurd hz h
    · exact hlt
  · intro h
    rcases selectStop_short_cases s atr p with hz | ⟨_, hlt⟩
    · exact absurd hz h
    · exact hlt
  · intro h
    rcases selectStop_long_cases s atr p with hz | ⟨_, hlt⟩
    · rw [hz] at h
      exact absurd h (lt_irrefl 0)
    · rw [computeStopDistance_long]
      linarith
  · intro h
    rcases selectStop_short_cases s atr p with hz | ⟨_, hlt⟩
    · rw [hz] at h
      exact absurd h (lt_irrefl 0)
    · rw [computeStopDistance_short]
      linarith

/-- Witness for C9: with price 50000 the AI stop 45000 is selected for a
LONG target and lies strictly below the price. -/
theorem selectStop_sound_witness :
    (0 : ℚ) < 50000 ∧ selectStop "LONG" 45000 0 50000 ≠ 0 ∧
    selectStop "LONG" 45000 0 50000 < 50000 := by
  have hval : selectStop "LONG" (45000 : ℚ) 0 50000 = 45000 := by
    unfold selectStop
    rw [if_neg (by decide : ¬("LONG" = "SHORT"))]
    norm_num
  have hne : selectStop "LONG" (45000 : ℚ) 0 50000 ≠ 0 := by
    rw [hval]
    norm_num
  exact ⟨by norm_num,  hne,
    (selectStop_sound 45000 0 50000 (by norm_num) ⟨0, 0, 0, 0, 0⟩
      ⟨⟨"", "", 0, 0, 0, 0, 0, ""⟩, ⟨0⟩, ⟨""⟩, ⟨0, 0⟩, 0⟩ ⟨"", 0, 0, 0, false⟩).1 hne⟩

theorem trackerUpdate_halted_mono (cfg : RiskConfig) (s : TrackerState) (date : String)
    (equity : ℚ) (h : haltedOn s date = true) :
    haltedOn (trackerUpdate cfg s date equity).1 date = true := by
  unfold haltedOn at h ⊢
  rcases hmet : s.metrics date with _ | row
  · rw [hmet] at h
    exact absurd h (by simp)
  · rw [hmet] at h
    have h2 : row.halted = true := h
    simp only [trackerUpdate, hmet]
    simp [h2]

theorem trackerUpdate_halted_sticky (cfg : RiskConfig) (date : String) :
    ∀ (eqs : List ℚ) (s : TrackerState), haltedOn s date = true →
      haltedOn (eqs.foldl (fun st e => (trackerUpdate cfg st date e).1) s) date = true := by
  intro eqs
  induction eqs with
  | nil => exact fun s h => h
  | cons e rest ih =>
      intro s h
      simp only [List.foldl_cons]
      exact ih _ (trackerUpdate_halted_mono cfg s date e h)

/-- C1: only `Update` touches the daily metrics (`LogEvent` never does); the
first `Update` of a trading date persists halted=false with startEquity =
currentEquity = equity; every later `Update` of that date leaves other dates
untouched and sets halted exactly when it was already set or the loss
percentage (0 for a non-positive start equity) reaches -maxDailyLoss; and
once halted, any sequence of further updates of that date keeps it halted. -/
theorem trackerUpdate_halt_monotonic (cfg : RiskConfig) (s : TrackerState) (date : String)
    (equity : ℚ) (hmdl : 0 < cfg.maxDailyLoss) :
    (s.metrics date = none →
      (trackerUpdate cfg s date equity).2 = ⟨date, equity, equity, 0, false⟩ ∧
      (trackerUpdate cfg s date equity).1.metrics date = some ⟨equity, equity, false⟩) ∧
    (∀ row, s.metrics date = some row →
      ((trackerUpdate cfg s date equity).2.halted = true ↔
        (row.halted = true ∨ lossPercentOf row.startEquity equity ≤ -cfg.maxDailyLoss)) ∧
      (trackerUpdate cfg s date equity).2 =
        ⟨date, row.startEquity, equity, lossPercentOf row.startEquity equity,
          (trackerUpdate cfg s date equity).2.halted⟩ ∧
      (trackerUpdate cfg s date equity).1.metrics date =
        some ⟨row.startEquity, equity, (trackerUpdate cfg s date equity).2.halted⟩) ∧
    (∀ d, d ≠ date → (trackerUpdate cfg s date equity).1.metrics d = s.metrics d) ∧
    (∀ et msg det td, (trackerLogEvent s et msg det td).metrics = s.metrics) ∧
    (haltedOn s date = true → ∀ eqs : List ℚ,
      haltedOn (eqs.foldl (fun st e => (trackerUpdate cfg st date e).1) s) date = true) := by
  refine ⟨fun h => ?_, fun row h => ?_, fun d hd => ?_, fun et msg det td => ?_,
    fun h eqs => trackerUpdate_halted_sticky cfg date eqs s h⟩
  · simp only [trackerUpdate, h]
    exact ⟨by first | rfl | trivial, by simp⟩
  · simp only [trackerUpdate, h]
    refine ⟨?_, by first | rfl | trivial, by simp⟩
    rcases hb : row.halted with _ | _
    · simp only [hb, Bool.false_or, Bool.not_false, Bool.true_and, Bool.and_eq_true,
        decide_eq_true_eq, Bool.false_eq_true, false_or]
      constructor
      · exact fun hc => hc.2
      · intro hc
        refine ⟨?_, hc⟩
        by_contra hs
        have hs0 : row.startEquity ≤ 0 := not_lt.mp hs
        rw [lossPercentOf, if_neg (not_lt.mpr hs0)] at hc
        linarith
    · simp [hb]
  · rcases hmet : s.metrics date with _ | row <;>
      simp only [trackerUpdate, hmet] <;> simp [hd]
  · unfold trackerLogEvent
    split_ifs <;> rfl

/-- Witness for C1 at Scenario B: start equity 100000, new equity 96500,
maxDailyLoss 3 percent: the loss of 3.5 percent halts the day. -/
theorem trackerUpdate_halt_monotonic_witness :
    (0 : ℚ) < 3 / 100 ∧
    (trackerUpdate ⟨1 / 100, 3 / 100, 1 / 5, 4 / 5, 3 / 5⟩
      ⟨fun d => if d = "2026-01-01" then some ⟨100000, 100000, false⟩ else none, []⟩
      "2026-01-01" 96500).2.halted = true := by
  have h := ((trackerUpdate_halt_monotonic ⟨1 / 100, 3 / 100, 1 / 5, 4 / 5, 3 / 5⟩
    ⟨fun d => if d = "2026-01-01" then some ⟨100000, 100000, false⟩ else none, []⟩
    "2026-01-01" 96500 (by norm_num)).2.1 ⟨100000, 100000, false⟩ (by simp)).1
  refine ⟨by norm_num, h.mpr (Or.inr ?_)⟩
  rw [lossPercentOf, if_pos (by norm_num)]
  norm_num

theorem runAttempts_nil (resp : Nat → AttemptOutcome) (ctx : Nat → Bool) :
    runAttempts resp ctx [] = (some .retriesExhausted, []) := rfl

theorem runAttempts_cons_ok {resp : Nat → AttemptOutcome} {ctx : Nat → Bool} {a : Nat}
    {rest : List Nat} (h1 : resp a = .ok) :
    runAttempts resp ctx (a :: rest) = (none, [a]) := by
  simp [runAttempts, h1]

theorem runAttempts_cons_fatal {resp : Nat → AttemptOutcome} {ctx : Nat → Bool} {a : Nat}
    {rest : List Nat} (h1 : resp a = .errRes false) :
    runAttempts resp ctx (a :: rest) = (some .fatal, [a]) := by
  simp [runAttempts, h1]

theorem runAttempts_cons_cancel {resp : Nat → AttemptOutcome} {ctx : Nat → Bool} {a : Nat}
    {rest : List Nat} (h1 : resp a = .errRes true) (hc : ctx a = true) :
    runAttempts resp ctx (a :: rest) = (some .ctxCancelled, [a]) := by
  simp [runAttempts, h1, hc]

theorem runAttempts_cons_retry {resp : Nat → AttemptOutcome} {ctx : Nat → Bool} {a : Nat}
    {rest : List Nat} (h1 : resp a = .errRes true) (hc : ctx a = false) :
    runAttempts resp ctx (a :: rest) =
      ((runAttempts resp ctx rest).1, a :: (runAttempts resp ctx rest).2) := by
  simp [runAttempts, h1, hc]

theorem range'_succ_cons (a n : Nat) : List.range' a (n + 1) = a :: List.range' (a + 1) n := rfl

theorem runAttempts_trace (resp : Nat → AttemptOutcome) (ctx : Nat → Bool) :
    ∀ (n a : Nat),
      (runAttempts resp ctx (List.range' a n)).2 =
        List.range' a (runAttempts resp ctx (List.range' a n)).2.length ∧
      (runAttempts resp ctx (List.range' a n)).2.length ≤ n ∧
      (1 ≤ n → 1 ≤ (runAttempts resp ctx (List.range' a n)).2.length) := by
  intro n
  induction n with
  | zero =>
      intro a
      simp [List.range', runAttempts_nil]
  | succ n ih =>
      intro a
      rw [range'_succ_cons]
      cases h1 : resp a with
      | ok =>
          rw [runAttempts_cons_ok h1]
          simp [List.range']
      | errRes r =>
          cases r with
          | false =>
              rw [runAttempts_cons_fatal h1]
              simp [List.range']
          | true =>
              cases hc : ctx a with
              | true =>
                  rw [runAttempts_cons_cancel h1 hc]
                  simp [List.range']
              | false =>
                  rw [runAttempts_cons_retry h1 hc]
                  obtain ⟨iht, ihlen, _⟩ := ih (a + 1)
                  simp only [List.length_cons]
                  refine ⟨?_, by omega, fun _ => by omega⟩
                  rw [range'_succ_cons]
                  exact congrArg (a :: ·) iht

theorem runAttempts_retryable (resp : Nat → AttemptOutcome) (ctx : Nat → Bool) :
    ∀ (n a i : Nat), a ≤ i →
      i + 1 < a + (runAttempts resp ctx (List.range' a n)).2.length →
      resp i = .errRes true ∧ ctx i = false := by
  intro n
  induction n with
  | zero =>
      intro a i hai hlen
      rw [show List.range' a 0 = [] from rfl, runAttempts_nil] at hlen
      simp at hlen
      omega
  | succ n ih =>
      intro a i hai hlen
      rw [range'_succ_cons] at hlen
      cases h1 : resp a with
      | ok =>
          rw [runAttempts_cons_ok h1] at hlen
          simp at hlen
          omega
      | errRes r =>
          cases r with
          | false =>
              rw [runAttempts_cons_fatal h1] at hlen
              simp at hlen
              omega
          | true =>
              cases hc : ctx a with
              | true =>
                  rw [runAttempts_cons_cancel h1 hc] at hlen
                  simp at hlen
                  omega
              | false =>
                  rw [runAttempts_cons_retry h1 hc] at hlen
                  simp only [List.length_cons] at hlen
                  rcases Nat.eq_or_lt_of_le hai with heq | hlt
                  · subst heq
                    exact ⟨h1, hc⟩
                  · exact ih (a + 1) i hlt (by omega)

theorem runAttempts_final (resp : Nat → AttemptOutcome) (ctx : Nat → Bool) :
    ∀ (n a : Nat), 1 ≤ n →
      ((runAttempts resp ctx (List.range' a n)).1 = none →
        resp (a + (runAttempts resp ctx (List.range' a n)).2.length - 1) = .ok) ∧
      ((runAttempts resp ctx (List.range' a n)).1 = some .fatal →
        resp (a + (runAttempts resp ctx (List.range' a n)).2.length - 1) = .errRes false) ∧
      ((runAttempts resp ctx (List.range' a n)).1 = some .ctxCancelled →
        resp (a + (runAttempts resp ctx (List.range' a n)).2.length - 1) = .errRes true ∧
        ctx (a + (runAttempts resp ctx (List.range' a n)).2.length - 1) = true) ∧
      ((runAttempts resp ctx (List.range' a n)).1 = some .retriesExhausted →
        (runAttempts resp ctx (List.range' a n)).2.length = n ∧
        ∀ i, a ≤ i → i < a + n → resp i = .errRes true ∧ ctx i = false) := by
  intro n
  induction n with
  | zero => intro a h; omega
  | succ n ih =>
      intro a _
      rw [range'_succ_cons]
      cases h1 : resp a with
      | ok =>
          rw [runAttempts_cons_ok h1]
          refine ⟨fun _ => ?_, fun h => by simp at h, fun h => by simp at h,
            fun h => by simp at h⟩
          simpa using h1
      | errRes r =>
          cases r with
          | false =>
              rw [runAttempts_cons_fatal h1]
              refine ⟨fun h => by simp at h, fun _ => ?_, fun h => by simp at h,
                fun h => by simp at h⟩
              simpa using h1
          | true =>
              cases hc : ctx a with
              | true =>
                  rw [runAttempts_cons_cancel h1 hc]
                  refine ⟨fun h => by simp at h, fun h => by simp at h, fun _ => ?_,
                    fun h => by simp at h⟩
                  constructor
                  · simpa using h1
                  · simpa using hc
              | false =>
                  rcases Nat.eq_zero_or_pos n with hn | hn
                  · subst hn
                    rw [show List.range' (a + 1) 0 = [] from rfl]
                    rw [runAttempts_cons_retry h1 hc, runAttempts_nil]
                    refine ⟨fun h => by simp at h, fun h => by simp at h,
                      fun h => by simp at h, fun _ => ⟨rfl, fun i hi1 hi2 => ?_⟩⟩
                    have : i = a := by omega
                    subst this
                    exact ⟨h1, hc⟩
                  · obtain ⟨ihok, ihfatal, ihcanc, ihexh⟩ := ih (a + 1) hn
                    obtain ⟨_, _, ihpos⟩ := runAttempts_trace resp ctx n (a + 1)
                    have hlen1 := ihpos hn
                    rw [runAttempts_cons_retry h1 hc]
                    simp only [List.length_cons]
                    have harith : a + ((runAttempts resp ctx
                        (List.range' (a + 1) n)).2.length + 1) - 1 =
                        a + 1 + (runAttempts resp ctx (List.range' (a + 1) n)).2.length - 1 := by
                      omega
                    rw [harith]
                    refine ⟨ihok, ihfatal, ihcanc, fun h => ?_⟩
                    obtain ⟨hlen, hall⟩ := ihexh h
                    refine ⟨by omega, fun i hi1 hi2 => ?_⟩
                    rcases Nat.eq_or_lt_of_le hi1 with heq | hlt
                    · subst heq
                      exact ⟨h1, hc⟩
                    · exact hall i hlt (by omega)

theorem submitOrder3_spec (resp : Nat → AttemptOutcome) (ctx : Nat → Bool) :
    (submitOrder resp ctx 3).2 = List.range' 1 (submitOrder resp ctx 3).2.length ∧
    1 ≤ (submitOrder resp ctx 3).2.length ∧ (submitOrder resp ctx 3).2.length ≤ 3 ∧
    (∀ a, 1 ≤ a → a < (submitOrder resp ctx 3).2.length →
      resp a = .errRes true ∧ ctx a = false) := by
  unfold submitOrder
  obtain ⟨ht, hlen, hpos⟩ := runAttempts_trace resp ctx 3 1
  exact ⟨ht, hpos (by norm_num), hlen,
    fun a ha1 ha2 => runAttempts_retryable resp ctx 3 1 a ha1 (by omega)⟩

theorem submitOrder3_cancel_beats_exhaust (resp : Nat → AttemptOutcome) (ctx : Nat → Bool)
    (hall : ∀ a, 1 ≤ a → a ≤ 3 → resp a = .errRes true) :
    ((submitOrder resp ctx 3).1 = some .retriesExhausted ↔
      ∀ a, 1 ≤ a → a ≤ 3 → ctx a = false) ∧
    ((submitOrder resp ctx 3).1 = some .ctxCancelled ∨
      (submitOrder resp ctx 3).1 = some .retriesExhausted) := by
  have e1 := hall 1 (by norm_num) (by norm_num)
  have e2 := hall 2 (by norm_num) (by norm_num)
  have e3 := hall 3 (by norm_num) (by norm_num)
  unfold submitOrder
  rw [show List.range' 1 3 = [1, 2, 3] from rfl]
  cases hc1 : ctx 1 with
  | true =>
      rw [runAttempts_cons_cancel e1 hc1]
      refine ⟨⟨fun h => by simp at h, fun h => ?_⟩, Or.inl rfl⟩
      exact absurd (h 1 (by norm_num) (by norm_num)) (by simp [hc1])
  | false =>
      rw [runAttempts_cons_retry e1 hc1]
      cases hc2 : ctx 2 with
      | true =>
          rw [runAttempts_cons_cancel e2 hc2]
          refine ⟨⟨fun h => by simp at h, fun h => ?_⟩, Or.inl rfl⟩
          exact absurd (h 2 (by norm_num) (by norm_num)) (by simp [hc2])
      | false =>
          rw [runAttempts_cons_retry e2 hc2]
          cases hc3 : ctx 3 with
          | true =>
              rw [runAttempts_cons_cancel e3 hc3]
              refine ⟨⟨fun h => by simp at h, fun h => ?_⟩, Or.inl rfl⟩
              exact absurd (h 3 (by norm_num) (by norm_num)) (by simp [hc3])
          | false =>
              rw [runAttempts_cons_retry e3 hc3, runAttempts_nil]
              refine ⟨⟨fun _ a ha1 ha3 => ?_, fun _ => rfl⟩, Or.inr rfl⟩
              interval_cases a <;> assumption

theorem executeOrders_nil (resp : Nat → Nat → AttemptOutcome) (ctxDone : Nat → Nat → Bool)
    (maxRetry i : Nat) :
    executeOrders resp ctxDone maxRetry i [] = ([], (true, [], none)) := rfl

theorem executeOrders_cons_ok {resp : Nat → Nat → AttemptOutcome}
    {ctxDone : Nat → Nat → Bool} {maxRetry i : Nat} {o : OrderRequest}
    {rest : List OrderRequest}
    (h : (submitOrder (resp i) (ctxDone i) maxRetry).1 = none) :
    executeOrders resp ctxDone maxRetry i (o :: rest) =
      ((i, (submitOrder (resp i) (ctxDone i) maxRetry).2) ::
          (executeOrders resp ctxDone maxRetry (i + 1) rest).1,
        (executeOrders resp ctxDone maxRetry (i + 1) rest).2) := by
  simp [executeOrders, h]

theorem executeOrders_cons_err {resp : Nat → Nat → AttemptOutcome}
    {ctxDone : Nat → Nat → Bool} {maxRetry i : Nat} {o : OrderRequest}
    {rest : List OrderRequest} {e : SubmitError}
    (h : (submitOrder (resp i) (ctxDone i) maxRetry).1 = some e) :
    executeOrders resp ctxDone maxRetry i (o :: rest) =
      ([(i, (submitOrder (resp i) (ctxDone i) maxRetry).2)],
        (false, ["order submit failed"], some e)) := by
  simp [executeOrders, h]

theorem executeOrders_spec (resp : Nat → Nat → AttemptOutcome)
    (ctxDone : Nat → Nat → Bool) (maxRetry : Nat) :
    ∀ (orders : List OrderRequest) (i : Nat),
      ((executeOrders resp ctxDone maxRetry i orders).1.map Prod.fst =
        List.range' i (executeOrders resp ctxDone maxRetry i orders).1.length) ∧
      ((executeOrders resp ctxDone maxRetry i orders).1.length ≤ orders.length) ∧
      (∀ p ∈ (executeOrders resp ctxDone maxRetry i orders).1,
        p.2 = (submitOrder (resp p.1) (ctxDone p.1) maxRetry).2) ∧
      ((executeOrders resp ctxDone maxRetry i orders).2.2.2 = none →
        (executeOrders resp ctxDone maxRetry i orders).2.1 = true ∧
        (executeOrders resp ctxDone maxRetry i orders).2.2.1 = [] ∧
        (executeOrders resp ctxDone maxRetry i orders).1.length = orders.length ∧
        ∀ j, i ≤ j → j < i + orders.length →
          (submitOrder (resp j) (ctxDone j) maxRetry).1 = none) ∧
      (∀ e, (executeOrders resp ctxDone maxRetry i orders).2.2.2 = some e →
        (executeOrders resp ctxDone maxRetry i orders).2.1 = false ∧
        (executeOrders resp ctxDone maxRetry i orders).2.2.1 = ["order submit failed"] ∧
        1 ≤ (executeOrders resp ctxDone maxRetry i orders).1.length ∧
        (submitOrder
          (resp (i + (executeOrders resp ctxDone maxRetry i orders).1.length - 1))
          (ctxDone (i + (executeOrders resp ctxDone maxRetry i orders).1.length - 1))
          maxRetry).1 = some e ∧
        ∀ j, i ≤ j → j + 1 < i + (executeOrders resp ctxDone maxRetry i orders).1.length →
          (submitOrder (resp j) (ctxDone j) maxRetry).1 = none) := by
  intro orders
  induction orders with
  | nil =>
      intro i
      rw [executeOrders_nil]
      refine ⟨rfl, by simp, by simp, fun _ => ⟨rfl, rfl, rfl, fun j hj1 hj2 => ?_⟩,
        fun e he => by simp at he⟩
      simp at hj2
      omega
  | cons o rest ih =>
      intro i
      cases hs : (submitOrder (resp i) (ctxDone i) maxRetry).1 with
      | none =>
          rw [executeOrders_cons_ok hs]
          obtain ⟨ihmap, ihlen, ihmem, ihok, iherr⟩ := ih (i + 1)
          simp only [List.map_cons, List.length_cons]
          refine ⟨?_, by simp; omega, ?_, fun he => ?_, fun e he => ?_⟩
          · rw [range'_succ_cons]
            exact congrArg (i :: ·) ihmap
          · intro p hp
            rcases List.mem_cons.mp hp with heq | hmem
            · subst heq
              rfl
            · exact ihmem p hmem
          · obtain ⟨hex, hnotes, hlen, hall⟩ := ihok he
            refine ⟨hex, hnotes, by simp [hlen], fun j hj1 hj2 => ?_⟩
            rcases Nat.eq_or_lt_of_le hj1 with heq | hlt
            · subst heq
              exact hs
            · exact hall j hlt (by omega)
          · obtain ⟨hex, hnotes, hlen1, hfin, hall⟩ := iherr e he
            have harith : i + ((executeOrders resp ctxDone maxRetry (i + 1) rest).1.length
                + 1) - 1 =
                i + 1 + (executeOrders resp ctxDone maxRetry (i + 1) rest).1.length - 1 := by
              omega
            refine ⟨hex, hnotes, by omega, by rw [harith]; exact hfin, fun j hj1 hj2 => ?_⟩
            rcases Nat.eq_or_lt_of_le hj1 with heq | hlt
            · subst heq
              exact hs
            · exact hall j hlt (by omega)
      | some e =>
          rw [executeOrders_cons_err hs]
          refine ⟨by simp [List.range'], by simp, ?_, fun he => by simp at he,
            fun e2 he2 => ?_⟩
          · intro p hp
            rcases List.mem_cons.mp hp with heq | hmem
            · subst heq
              rfl
            · simp at hmem
          · have he2' : e = e2 := by simpa using he2
            subst he2'
            refine ⟨rfl, rfl, by simp, ?_, fun j hj1 hj2 => ?_⟩
            · simpa using hs
            · simp at hj2
              omega

/-- C8: `Executor.Execute` submits orders strictly in list order (the
attempted order indices are an initial segment 0,1,2,... of the list), each
order makes attempts 1..n in order with n at most 3, a non-final attempt is
always a retryable error with no cancellation during its backoff wait, the
batch aborts at the first failing order with `Executed=false`, one appended
note and the order error (later orders are never attempted), `Executed=true`
is returned exactly when every order succeeded, and when every attempt of an
order fails retryably a context cancellation during a backoff wait yields
the cancellation error rather than the retry-exhaustion error. -/
theorem executorExecute_submission_discipline (resp : Nat → Nat → AttemptOutcome)
    (ctxDone : Nat → Nat → Bool) (orders : List OrderRequest) :
    ((executeOrders resp ctxDone 3 0 orders).1.map Prod.fst =
      List.range (executeOrders resp ctxDone 3 0 orders).1.length) ∧
    ((executeOrders resp ctxDone 3 0 orders).1.length ≤ orders.length) ∧
    (∀ p ∈ (executeOrders resp ctxDone 3 0 orders).1,
      p.2 = List.range' 1 p.2.length ∧ 1 ≤ p.2.length ∧ p.2.length ≤ 3 ∧
      ∀ a, 1 ≤ a → a < p.2.length → resp p.1 a = .errRes true ∧ ctxDone p.1 a = false) ∧
    (orders ≠ [] →
      ((executorExecute resp ctxDone orders).1.executed = true ↔
        ∀ j, j < orders.length → (submitOrder (resp j) (ctxDone j) 3).1 = none)) ∧
    (∀ e, (executorExecute resp ctxDone orders).2 = some e →
      (executorExecute resp ctxDone orders).1.executed = false ∧
      (executorExecute resp ctxDone orders).1.notes = ["order submit failed"] ∧
      1 ≤ (executeOrders resp ctxDone 3 0 orders).1.length ∧
      (submitOrder (resp ((executeOrders resp ctxDone 3 0 orders).1.length - 1))
        (ctxDone ((executeOrders resp ctxDone 3 0 orders).1.length - 1)) 3).1 = some e ∧
      ∀ j, j + 1 < (executeOrders resp ctxDone 3 0 orders).1.length →
        (submitOrder (resp j) (ctxDone j) 3).1 = none) ∧
    (∀ i, (∀ a, 1 ≤ a → a ≤ 3 → resp i a = .errRes true) →
      ((submitOrder (resp i) (ctxDone i) 3).1 = some .retriesExhausted ↔
        ∀ a, 1 ≤ a → a ≤ 3 → ctxDone i a = false) ∧
      ((submitOrder (resp i) (ctxDone i) 3).1 = some .ctxCancelled ∨
        (submitOrder (resp i) (ctxDone i) 3).1 = some .retriesExhausted)) := by
  obtain ⟨hmap, hlen, hmem, hok, herr⟩ := executeOrders_spec resp ctxDone 3 orders 0
  refine ⟨by rw [List.range_eq_range']; exact hmap, hlen, ?_, ?_, ?_,
    fun i hall => submitOrder3_cancel_beats_exhaust (resp i) (ctxDone i) hall⟩
  · intro p hp
    obtain ⟨ht, h1, h3, hretry⟩ := submitOrder3_spec (resp p.1) (ctxDone p.1)
    rw [hmem p hp]
    exact ⟨ht, h1, h3, hretry⟩
  · intro hne
    unfold executorExecute
    rw [if_neg hne]
    simp only []
    constructor
    · intro hex j hj
      cases he : (executeOrders resp ctxDone 3 0 orders).2.2.2 with
      | none =>
          obtain ⟨_, _, _, hall⟩ := hok he
          exact hall j (by omega) (by omega)
      | some e =>
          obtain ⟨hfalse, _⟩ := herr e he
          rw [hfalse] at hex
          exact Bool.noConfusion hex
    · intro hall
      cases he : (executeOrders resp ctxDone 3 0 orders).2.2.2 with
      | none => exact (hok he).1
      | some e =>
          obtain ⟨_, _, hlen1, hfin, _⟩ := herr e he
          have hidx : 0 + (executeOrders resp ctxDone 3 0 orders).1.length - 1 <
              orders.length := by
            omega
          rw [hall _ hidx] at hfin
          exact Option.noConfusion hfin
  · intro e he
    by_cases hne : orders = []
    · subst hne
      rw [show executorExecute resp ctxDone [] =
        ({ orders := [], executed := false, notes := [] }, none) from rfl] at he
      exact Option.noConfusion he
    · rw [show (executorExecute resp ctxDone orders).2 =
          (executeOrders resp ctxDone 3 0 orders).2.2.2 from by
        unfold executorExecute
        rw [if_neg hne]] at he
      obtain ⟨hfalse, hnotes, hlen1, hfin, hall⟩ := herr e he
      have harith : 0 + (executeOrders resp ctxDone 3 0 orders).1.length - 1 =
          (executeOrders resp ctxDone 3 0 orders).1.length - 1 := by
        omega
      rw [harith] at hfin
      refine ⟨?_, ?_, hlen1, hfin, fun j hj => hall j (by omega) (by omega)⟩
      · unfold executorExecute
        rw [if_neg hne]
        simp only []
        exact hfalse
      · unfold executorExecute
        rw [if_neg hne]
        simp only []
        exact hnotes

/-- Witness for C8: a two-order batch whose second order fails with a
non-retryable error ends with `Executed=false`, one failure note, and the
fatal error carried to the caller. -/
theorem executorExecute_submission_discipline_witness :
    (executorExecute (fun i _ => if i = 0 then .ok else .errRes false) (fun _ _ => false)
      [⟨"market", "buy", 1, 1, false, false, ⟨false, false, none, false, none, none, none⟩,
        false⟩,
       ⟨"market", "sell", 1, 1, false, false, ⟨false, false, none, false, none, none, none⟩,
        false⟩]).2 = some .fatal ∧
    (executorExecute (fun i _ => if i = 0 then .ok else .errRes false) (fun _ _ => false)
      [⟨"market", "buy", 1, 1, false, false, ⟨false, false, none, false, none, none, none⟩,
        false⟩,
       ⟨"market", "sell", 1, 1, false, false, ⟨false, false, none, false, none, none, none⟩,
        false⟩]).1.executed = false ∧
    (executorExecute (fun i _ => if i = 0 then .ok else .errRes false) (fun _ _ => false)
      [⟨"market", "buy", 1, 1, false, false, ⟨false, false, none, false, none, none, none⟩,
        false⟩,
       ⟨"market", "sell", 1, 1, false, false, ⟨false, false, none, false, none, none, none⟩,
        false⟩]).1.notes = ["order submit failed"] := by
  have he : (executorExecute (fun i _ => if i = 0 then .ok else .errRes false)
      (fun _ _ => false)
      [⟨"market", "buy", 1, 1, false, false, ⟨false, false, none, false, none, none, none⟩,
        false⟩,
       ⟨"market", "sell", 1, 1, false, false, ⟨false, false, none, false, none, none, none⟩,
        false⟩]).2 = some .fatal := rfl
  obtain ⟨_, _, _, _, hd, _⟩ := executorExecute_submission_discipline
    (fun i _ => if i = 0 then .ok else .errRes false) (fun _ _ => false)
    [⟨"market", "buy", 1, 1, false, false, ⟨false, false, none, false, none, none, none⟩,
      false⟩,
     ⟨"market", "sell", 1, 1, false, false, ⟨false, false, none, false, none, none, none⟩,
      false⟩]
  obtain ⟨hex, hnotes, _, _, _⟩ := hd .fatal he
  exact ⟨he, hex, hnotes⟩

end TradesAI
